import Mathlib

/-!
Shallow embedding of the strategos simulation engine core
(src/core/state.py, events.py, event_store.py, checkpoints.py, time.py,
simulation.py and src/spatial/index.py, movement.py, entities.py),
with theorems settling the specification claims.

Modelling conventions:
* Python floats (simulation times, coordinates, velocities, scales) are
  modelled as rationals.
* UUIDs are modelled as their string rendering: payload fields such as
  entity_id hold the id string itself, and UUID(s) / str(uuid) round-trips
  are identities.
* Python dicts are association lists with first-match lookup; assignment
  replaces the first matching key in place (preserving insertion order)
  and appends fresh keys at the end, as CPython dicts do.
* Code that can raise (KeyError on a missing payload field, tuple() on a
  non-sequence, a raise statement) is modelled with Option / Except.
-/

namespace Strategos

/-- Python runtime values appearing in event payloads and entity records. -/
inductive PyVal where
  | int (n : Int)
  | float (q : ℚ)
  | str (s : String)
  | bool (b : Bool)
  | list (xs : List PyVal)
  | dict (kvs : List (String × PyVal))
  | pynone
  deriving Repr

/-- Numeric view of a Python value: int, float and bool (a bool is an int
in Python) participate in arithmetic; everything else does not. -/
def PyVal.asNum : PyVal → Option ℚ
  | .int n => some (n : ℚ)
  | .float q => some q
  | .bool b => some (if b then 1 else 0)
  | _ => none

/-- View of a Python value as a str, as used by UUID(event.data[...]). -/
def PyVal.asStr : PyVal → Option String
  | .str s => some s
  | _ => none

/-- View of a Python value as a sequence, as used by tuple(event.data[...]). -/
def PyVal.asList : PyVal → Option (List PyVal)
  | .list xs => some xs
  | _ => none

/-- Python comparison v != 0.0: numeric values compare numerically,
non-numeric values are unequal to 0.0. -/
def PyVal.neZero (v : PyVal) : Bool :=
  match v.asNum with
  | some q => decide (q ≠ 0)
  | none => true

/-- Event kinds: the EventType enumeration of core/events.py plus the open
string slot (Event.__post_init__ converts known strings to enum members, so
the custom constructor only arises for unknown kinds). -/
inductive EventKind where
  | simulationStarted
  | simulationPaused
  | simulationResumed
  | simulationStopped
  | timeScaled
  | timeScaleChanged
  | markerCreated
  | entityCreated
  | entityMoved
  | entityDestroyed
  | checkpointCreated
  | checkpointRestored
  | custom (s : String)
  deriving DecidableEq, Repr

/-- The Event dataclass of core/events.py (frozen). created_at is an
opaque wall-clock stamp. -/
structure Event where
  event_type : EventKind
  simulation_time : ℚ
  data : List (String × PyVal)
  metadata : List (String × PyVal)
  event_id : Nat
  causation_id : Option Nat
  correlation_id : Option Nat
  created_at : Nat

/-- First-match lookup in an association list, the model of dict[k] /
dict.get(k). -/
def lookup (k : String) : List (String × PyVal) → Option PyVal
  | [] => none
  | (k', v) :: rest => if k' = k then some v else lookup k rest

/-- dict.get(k, default). -/
def getD (k : String) (m : List (String × PyVal)) (d : PyVal) : PyVal :=
  (lookup k m).getD d

/-- Generic association-list lookup (dicts whose values are not PyVal). -/
def alookup {α : Type} (k : String) : List (String × α) → Option α
  | [] => none
  | (k', v) :: rest => if k' = k then some v else alookup k rest

/-- Dict assignment d[k] = v: replace the first matching key in place,
append at the end when the key is fresh (CPython dict insertion order). -/
def setKey {α : Type} (k : String) (v : α) : List (String × α) → List (String × α)
  | [] => [(k, v)]
  | (k', v') :: rest => if k' = k then (k, v) :: rest else (k', v') :: setKey k v rest

/-- Dict deletion del d[k]: drop the first matching key. -/
def delKey {α : Type} (k : String) : List (String × α) → List (String × α)
  | [] => []
  | (k', v') :: rest => if k' = k then rest else (k', v') :: delKey k rest

/-- Python set.add modelled on a duplicate-free list (no-op when present,
append otherwise). -/
def addElem (x : String) (l : List String) : List String :=
  if x ∈ l then l else l ++ [x]

/-- An entity record, the dict built by WorldState._apply_entity_created
(core/state.py).  The position and velocity are stored exactly as
tuple(payload) delivers them, so they may have any arity; the payload
entity_id and type strings are kept as given. -/
structure EntityRec where
  entity_id : String
  type : String
  position : List PyVal
  velocity : List PyVal
  heading : PyVal
  speed : PyVal
  max_speed : PyVal
  created_at : ℚ
  destroyed_at : Option ℚ
  waypoints : List PyVal
  metadata : PyVal
  last_update_time : ℚ

/-- WorldState of core/state.py. -/
structure WorldState where
  simulation_time : ℚ := 0
  event_count : Nat := 0
  metadata : List (String × PyVal) := []
  entities : List (String × EntityRec) := []
  entity_types : List (String × List String) := []

/-- The empty world state (WorldState() with all defaults). -/
def emptyWorld : WorldState := {}

/-- The entity-data dict built by WorldState._apply_entity_created. -/
def createdRecord (e : Event) (entity_id etype : String) (position : List PyVal) : EntityRec :=
  { entity_id := entity_id
    type := etype
    position := position
    velocity := [.float 0, .float 0, .float 0]
    heading := .float 0
    speed := .float 0
    max_speed := getD "max_speed" e.data (.float 10)
    created_at := e.simulation_time
    destroyed_at := none
    waypoints := []
    metadata := getD "metadata" e.data (.dict [])
    last_update_time := e.simulation_time }

/-- WorldState._apply_entity_created: KeyError on a missing entity_id,
type or position field (and UUID / tuple conversion failures) is a crash,
modelled as none. -/
def applyEntityCreated (s : WorldState) (e : Event) : Option WorldState := do
  let entity_id ← (lookup "entity_id" e.data).bind PyVal.asStr
  let etype ← (lookup "type" e.data).bind PyVal.asStr
  let position ← (lookup "position" e.data).bind PyVal.asList
  let s1 := { s with entities := setKey entity_id (createdRecord e entity_id etype position) s.entities }
  let tys := (alookup etype s1.entity_types).getD []
  pure { s1 with entity_types := setKey etype (addElem entity_id tys) s1.entity_types }

/-- The position block of _apply_entity_moved: update the position when
the payload has one (tuple() of a non-sequence crashes). -/
def movedUpdatePosition (r : EntityRec) (e : Event) : Option EntityRec :=
  match lookup "position" e.data with
  | some v => (v.asList).map fun l => { r with position := l }
  | none => some r

/-- The velocity block of _apply_entity_moved. -/
def movedUpdateVelocity (r : EntityRec) (e : Event) : Option EntityRec :=
  match lookup "velocity" e.data with
  | some v => (v.asList).map fun l => { r with velocity := l }
  | none => some r

/-- The heading block of _apply_entity_moved (no conversion, cannot
crash). -/
def movedUpdateHeading (r : EntityRec) (e : Event) : EntityRec :=
  match lookup "heading" e.data with
  | some v => { r with heading := v }
  | none => r

/-- WorldState._apply_entity_moved: silently ignores an unknown entity;
updates position / velocity / heading when present in the payload and
always refreshes last_update_time. -/
def applyEntityMoved (s : WorldState) (e : Event) : Option WorldState := do
  let entity_id ← (lookup "entity_id" e.data).bind PyVal.asStr
  match alookup entity_id s.entities with
  | none => pure s
  | some r0 => do
    let r1 ← movedUpdatePosition r0 e
    let r2 ← movedUpdateVelocity r1 e
    let r3 := movedUpdateHeading r2 e
    let r4 := { r3 with last_update_time := e.simulation_time }
    pure { s with entities := setKey entity_id r4 s.entities }

/-- WorldState._apply_entity_destroyed: silently ignores an unknown
entity; otherwise marks destroyed_at, discards the id from the type set of
the record's type, then deletes the record. -/
def applyEntityDestroyed (s : WorldState) (e : Event) : Option WorldState := do
  let entity_id ← (lookup "entity_id" e.data).bind PyVal.asStr
  match alookup entity_id s.entities with
  | none => pure s
  | some r =>
    let s1 := { s with
      entities := setKey entity_id { r with destroyed_at := some e.simulation_time } s.entities }
    let s2 := match alookup r.type s1.entity_types with
      | some tys => { s1 with entity_types := setKey r.type (tys.erase entity_id) s1.entity_types }
      | none => s1
    pure { s2 with entities := delKey entity_id s2.entities }

/-- WorldState.apply_event: stamps the event time, bumps the count, then
branches on the entity event kinds; every other kind leaves entity state
unchanged. -/
def applyEvent (s : WorldState) (e : Event) : Option WorldState :=
  let s' := { s with simulation_time := e.simulation_time, event_count := s.event_count + 1 }
  match e.event_type with
  | .entityCreated => applyEntityCreated s' e
  | .entityMoved => applyEntityMoved s' e
  | .entityDestroyed => applyEntityDestroyed s' e
  | _ => some s'

/-- Sequential application of a list of events (the replay loop). -/
def applyEvents (s : WorldState) (es : List Event) : Option WorldState :=
  es.foldlM applyEvent s

/-! ## Event store (core/event_store.py)

The SQLite table, read back ordered by (simulation_time ASC, created_at ASC),
is modelled as a list of events kept in canonical order; the claims that
need the order state it as a sortedness hypothesis. -/

/-- EventStore.get_events on an open store: events with
from_time <= t <= to_time, in the stored canonical order (both bounds
inclusive, matching the SQL comparisons). -/
def getEvents (log : List Event) (from_time to_time : ℚ) : List Event :=
  log.filter fun e => from_time ≤ e.simulation_time ∧ e.simulation_time ≤ to_time

/-- A persisted event store handle: none models a store that was never
initialized or has been closed, some holds the table contents. -/
structure EventStoreM where
  db : Option (List Event)

/-- The Python exception taxonomy of core/exceptions.py, together with the
builtin ValueError (core/time.py raises it directly). -/
inductive PyErr where
  | eventPersistenceError (msg : String)
  | eventRetrievalError (msg : String)
  | eventValidationError (msg : String)
  | checkpointCreationError (msg : String)
  | checkpointRestoreError (msg : String)
  | checkpointNotFoundError (msg : String)
  | simulationStateError (msg : String)
  | timeSeekError (msg : String)
  | handlerExecutionError (msg : String)
  | valueError (msg : String)
  deriving DecidableEq, Repr

/-- EventStore.append: raises EventPersistenceError when the store is not
open, otherwise inserts the row. -/
def storeAppend (st : EventStoreM) (e : Event) : Except PyErr EventStoreM :=
  match st.db with
  | none => .error (.eventPersistenceError "_NOT_INITIALIZED_ERROR")
  | some rows => .ok ⟨some (rows ++ [e])⟩

/-- EventStore.get_event_count: returns 0 when the store is not open. -/
def getEventCount (st : EventStoreM) : Nat :=
  match st.db with
  | none => 0
  | some rows => rows.length

/-- EventStore.get_latest_time: SELECT MAX(simulation_time); returns none
when the store is not open and none when the table is empty. -/
def getLatestTime (st : EventStoreM) : Option ℚ :=
  match st.db with
  | none => none
  | some [] => none
  | some (e :: rest) => some (rest.foldl (fun m x => max m x.simulation_time) e.simulation_time)

/-- EventStore.clear: a silent no-op when the store is not open, otherwise
deletes every row. -/
def storeClear (st : EventStoreM) : EventStoreM :=
  match st.db with
  | none => st
  | some _ => ⟨some []⟩

/-! ## Checkpoints and seek (core/checkpoints.py, core/simulation.py) -/

/-- A checkpoint: the pickled state blob round-trips losslessly, so it is
modelled by the state itself. -/
structure Checkpoint where
  simulation_time : ℚ
  state : WorldState

/-- CheckpointStore.get_nearest_before: among the stored checkpoints with
time <= target, the one with the largest time (the directory scan keys
files by time, so times are distinct; ties keep the first). -/
def nearestBefore (cps : List Checkpoint) (t : ℚ) : Option Checkpoint :=
  (cps.filter fun c => c.simulation_time ≤ t).foldl
    (fun acc c =>
      match acc with
      | none => some c
      | some b => if b.simulation_time < c.simulation_time then some c else some b)
    none

/-- Simulation.seek, state reconstruction part: restore the nearest
checkpoint before the target (or reset to empty), then replay
get_events(from_time=replay_from, to_time=target) — an interval that is
closed at both ends, including replay_from itself. -/
def seekState (log : List Event) (cps : List Checkpoint) (target : ℚ) : Option WorldState :=
  match nearestBefore cps target with
  | some cp => applyEvents cp.state (getEvents log cp.simulation_time target)
  | none => applyEvents emptyWorld (getEvents log 0 target)

/-! ## Spatial index (src/spatial/index.py)

The R-tree entries are keyed by id(entity_id) — the transient CPython
address of the UUID object a caller passes, modelled as an opaque token
supplied with each operation — and carry the id value as their obj
payload, next to the _entity_positions dict.  Distinct calls generally
pass distinct objects (both event handlers construct UUID(...) afresh),
so a later delete with a different token silently misses the stored
entry.  Boxes are degenerate points, so intersection with a query box is
point membership. -/

/-- A 3D point. -/
abbrev Vec3 := ℚ × ℚ × ℚ

/-- SpatialIndex: the rtree entry bag — (id(object) token, obj = id value,
point) — and the _entity_positions dict. -/
structure SpatialIndex where
  rtree : List (Nat × String × Vec3)
  positions : List (String × Vec3)

/-- The freshly constructed index. -/
def emptySpatial : SpatialIndex := ⟨[], []⟩

/-- rtree.index.Index.delete(id, coordinates): removes one entry matching
the integer key and the box — the obj payload is not consulted — and is a
silent no-op when nothing matches. -/
def rtreeDelete (entries : List (Nat × String × Vec3)) (tok : Nat) (p : Vec3) :
    List (Nat × String × Vec3) :=
  match entries with
  | [] => []
  | e :: rest => if e.1 = tok ∧ e.2.2 = p then rest else e :: rtreeDelete rest tok p

/-- SpatialIndex.insert: adds an rtree entry keyed by the passed object's
token and records the position. -/
def sInsert (idx : SpatialIndex) (tok : Nat) (entity_id : String) (p : Vec3) : SpatialIndex :=
  { rtree := idx.rtree ++ [(tok, entity_id, p)]
    positions := setKey entity_id p idx.positions }

/-- SpatialIndex.update: insert when the id is unknown; otherwise delete
by the CALLING object's token and the old box — which misses whenever the
caller passes a different UUID object than the one that inserted the
entry — then insert the new entry and record the new position. -/
def sUpdate (idx : SpatialIndex) (tok : Nat) (entity_id : String) (p : Vec3) : SpatialIndex :=
  match alookup entity_id idx.positions with
  | none => sInsert idx tok entity_id p
  | some old =>
    { rtree := (rtreeDelete idx.rtree tok old) ++ [(tok, entity_id, p)]
      positions := setKey entity_id p idx.positions }

/-- SpatialIndex.remove: silent no-op when the id is unknown; otherwise
delete by the calling object's token and the stored box (again missing
when a different object is passed) and drop the dict entry. -/
def sRemove (idx : SpatialIndex) (tok : Nat) (entity_id : String) : SpatialIndex :=
  match alookup entity_id idx.positions with
  | none => idx
  | some p =>
    { rtree := rtreeDelete idx.rtree tok p
      positions := delKey entity_id idx.positions }

/-- Membership of a (degenerate) entry point in a closed query box. -/
def inBox (p : Vec3) (lo hi : Vec3) : Bool :=
  lo.1 ≤ p.1 ∧ p.1 ≤ hi.1 ∧ lo.2.1 ≤ p.2.1 ∧ p.2.1 ≤ hi.2.1 ∧
    lo.2.2 ≤ p.2.2 ∧ p.2.2 ≤ hi.2.2

/-- Comparison sqrt s <= r carried out without the square root: for the
squared distance s >= 0 this is exactly 0 <= r and s <= r * r, which
embeds the source's dist <= radius test on dist = s ** 0.5. -/
def sqrtLe (s r : ℚ) : Bool :=
  0 ≤ r ∧ s ≤ r * r

/-- Squared 2D distance, dx * dx + dy * dy. -/
def sqDist2 (p c : Vec3) : ℚ :=
  (p.1 - c.1) * (p.1 - c.1) + (p.2.1 - c.2.1) * (p.2.1 - c.2.1)

/-- Squared 3D distance, dx * dx + dy * dy + dz * dz. -/
def sqDist3 (p c : Vec3) : ℚ :=
  (p.1 - c.1) * (p.1 - c.1) + (p.2.1 - c.2.1) * (p.2.1 - c.2.1) +
    (p.2.2 - c.2.2) * (p.2.2 - c.2.2)

/-- The exact distance test applied to a candidate in query_radius. -/
def distOk (p c : Vec3) (radius : ℚ) (include_z : Bool) : Bool :=
  if include_z then sqrtLe (sqDist3 p c) radius else sqrtLe (sqDist2 p c) radius

/-- SpatialIndex.query_radius: a bounding-box prefilter over the rtree
entries (z extent center ± radius in 3D mode, the fixed range
[-1e10, 1e10] in 2D mode), then for each candidate, in order, the exact
distance filter against the position the dict records for its obj value;
candidates whose obj is missing from the dict are skipped, and two
surviving entries with the same obj value yield the id twice. -/
def queryRadius (idx : SpatialIndex) (center : Vec3) (radius : ℚ)
    (include_z : Bool) : List String :=
  let lo : Vec3 :=
    if include_z then (center.1 - radius, center.2.1 - radius, center.2.2 - radius)
    else (center.1 - radius, center.2.1 - radius, (-10000000000 : ℚ))
  let hi : Vec3 :=
    if include_z then (center.1 + radius, center.2.1 + radius, center.2.2 + radius)
    else (center.1 + radius, center.2.1 + radius, (10000000000 : ℚ))
  let candidates := idx.rtree.filter fun entry => inBox entry.2.2 lo hi
  candidates.filterMap fun entry =>
    match alookup entry.2.1 idx.positions with
    | some p => if distOk p center radius include_z then some entry.2.1 else none
    | none => none

/-- Simulation.seek acting on the full orchestrator state: the method body
reconstructs the world state and moves the clock but contains no statement
that touches the spatial index, which therefore passes through unchanged. -/
def seekFull (log : List Event) (cps : List Checkpoint) (target : ℚ)
    (idx : SpatialIndex) : Option (WorldState × SpatialIndex) :=
  (seekState log cps target).map fun s => (s, idx)

/-! ## Clock (core/time.py) -/

/-- The TimeState record of the simulation clock (the fields the claims
touch). -/
structure Clock where
  current_time : ℚ
  time_scale : ℚ

/-- SimulationClock.set_time_scale: raises the builtin ValueError when the
scale is not positive — the assignment is never reached, so the stored
scale is unchanged — and stores the new scale otherwise. -/
def clockSetTimeScale (c : Clock) (scale : ℚ) : Except PyErr Clock :=
  if scale ≤ 0 then .error (.valueError "Time scale must be positive")
  else .ok { c with time_scale := scale }

/-! ## Event validator (core/events.py, EventValidator) -/

/-- The primitive type tags used by the schema table: str, and the numeric
pair (int, float). -/
inductive FieldTy where
  | str
  | num
  deriving DecidableEq, Repr

/-- Python isinstance against a schema type spec; a bool is an instance of
int and therefore passes the (int, float) check. -/
def isInstanceOf (v : PyVal) : FieldTy → Bool
  | .str => match v with | .str _ => true | _ => false
  | .num => match v with | .int _ => true | .float _ => true | .bool _ => true | _ => false

/-- One entry of EventValidator.SCHEMAS: the required key list and the
expected-type table (which lists exactly the required keys). -/
structure EventSchema where
  required : List String
  types : List (String × FieldTy)

/-- EventValidator.SCHEMAS: kinds without an entry (including unknown
string kinds) are skipped by validation. -/
def eventSchema : EventKind → Option EventSchema
  | .simulationStarted =>
    some ⟨["simulation_id", "time_scale"], [("simulation_id", .str), ("time_scale", .num)]⟩
  | .simulationPaused =>
    some ⟨["simulation_id", "paused_at"], [("simulation_id", .str), ("paused_at", .num)]⟩
  | .simulationStopped =>
    some ⟨["simulation_id"], [("simulation_id", .str)]⟩
  | .timeScaled =>
    some ⟨["old_scale", "new_scale"], [("old_scale", .num), ("new_scale", .num)]⟩
  | .markerCreated =>
    some ⟨["label"], [("label", .str)]⟩
  | .entityCreated =>
    some ⟨["entity_id", "type"], [("entity_id", .str), ("type", .str)]⟩
  | .entityMoved =>
    some ⟨["entity_id"], [("entity_id", .str)]⟩
  | .entityDestroyed =>
    some ⟨["entity_id"], [("entity_id", .str)]⟩
  | _ => none

/-- The first required field missing from the payload, if any. -/
def firstMissing (data : List (String × PyVal)) (required : List String) : Option String :=
  required.find? fun f => (lookup f data).isNone

/-- The first present field whose value fails its isinstance check. -/
def firstMismatch (data : List (String × PyVal)) (types : List (String × FieldTy)) :
    Option String :=
  (types.find? fun ft =>
    match lookup ft.1 data with
    | some v => !isInstanceOf v ft.2
    | none => false).map Prod.fst

/-- EventValidator.validate: some err models a raised EventValidationError
(the message here abbreviates the source text, which interpolates the kind
and field); none models a normal return.  Kinds without a schema are
skipped.  Required keys are checked first, then the types of present
keys. -/
def validateEvent (e : Event) : Option PyErr :=
  match eventSchema e.event_type with
  | none => none
  | some sch =>
    match firstMissing e.data sch.required with
    | some f => some (.eventValidationError ("missing required field: " ++ f))
    | none =>
      match firstMismatch e.data sch.types with
      | some f => some (.eventValidationError ("field has wrong type: " ++ f))
      | none => none

/-! ## Orchestrator emit pipeline (core/simulation.py, Simulation.emit_event) -/

/-- CheckpointStore.should_create_checkpoint: true at (an epsilon around)
time zero and within epsilon of a multiple of the interval; the Python
float modulo is interval-signed remainder, here t - interval * floor(t /
interval) for the positive intervals the engine uses. -/
def shouldCreateCheckpoint (interval t : ℚ) : Bool :=
  if |t| < 1 / 10 ^ 9 then true
  else
    let r := t - interval * (Rat.floor (t / interval) : ℚ)
    |r| < 1 / 10 ^ 9 ∨ |r - interval| < 1 / 10 ^ 9

/-- The orchestrator state emit_event touches: the clock, the open event
store contents, the world state, the saved checkpoints, and the record of
events handed to the handler registry (dispatch order). -/
structure SimState where
  clock : Clock
  log : List Event
  state : WorldState
  checkpoints : List Checkpoint
  checkpoint_interval : ℚ
  dispatched : List Event

/-- Result of emit_event.  applyCrash models a Python exception escaping
state.apply_event after the event was persisted (the in-place partial
mutation of the state before the crash is not tracked; no claim depends
on it). -/
inductive EmitOutcome where
  | ok (sim : SimState) (e : Event)
  | validationError (err : PyErr) (sim : SimState)
  | applyCrash (sim : SimState)

/-- Simulation.emit_event: build the event at the current clock time,
validate (raising before any side effect), persist, reduce, dispatch with
fail_fast=False (handler errors are swallowed, so dispatch always
completes), then maybe checkpoint the post-reduction state at the clock
time.  The fresh event_id and created_at stamps are passed in. -/
def emitEvent (sim : SimState) (kind : EventKind) (data : List (String × PyVal))
    (eid created : Nat) : EmitOutcome :=
  let e : Event :=
    { event_type := kind
      simulation_time := sim.clock.current_time
      data := data
      metadata := []
      event_id := eid
      causation_id := none
      correlation_id := none
      created_at := created }
  match validateEvent e with
  | some err => .validationError err sim
  | none =>
    let sim1 := { sim with log := sim.log ++ [e] }
    match applyEvent sim1.state e with
    | none => .applyCrash sim1
    | some st =>
      let sim2 := { sim1 with state := st, dispatched := sim1.dispatched ++ [e] }
      if shouldCreateCheckpoint sim2.checkpoint_interval sim2.clock.current_time then
        .ok { sim2 with
          checkpoints := sim2.checkpoints ++ [⟨sim2.clock.current_time, st⟩] } e
      else
        .ok sim2 e

/-! ## Movement system (src/spatial/movement.py, entities.py) -/

/-- get_interpolated_position of spatial/entities.py: p + v * (current -
last_update); crashes (none) when a coordinate is absent or
non-numeric. -/
def getInterpolatedPosition (position velocity : List PyVal) (last cur : ℚ) :
    Option Vec3 := do
  let p0 ← position[0]?.bind PyVal.asNum
  let p1 ← position[1]?.bind PyVal.asNum
  let p2 ← position[2]?.bind PyVal.asNum
  let v0 ← velocity[0]?.bind PyVal.asNum
  let v1 ← velocity[1]?.bind PyVal.asNum
  let v2 ← velocity[2]?.bind PyVal.asNum
  let dt := cur - last
  pure (p0 + v0 * dt, p1 + v1 * dt, p2 + v2 * dt)

/-- The moving-entity test of MovementSystem._update_entities:
any(v != 0.0 for v in velocity). -/
def velocityNonzero (v : List PyVal) : Bool :=
  v.any PyVal.neZero

/-- The moving entities collected by one frame, in state iteration
order. -/
def movingEntities (s : WorldState) : List (String × EntityRec) :=
  s.entities.filter fun p => velocityNonzero p.2.velocity

/-- MovementSystem._update_entities, one iteration: for every moving
entity push the interpolated position to the spatial index via
spatial_index.update(entity_id, new_position).  The UUID object passed is
the entities-dict key, whose id() is stable per entity while the record
lives; tokOf supplies that token for each entity id.  The method reads
but never writes the world state, so the state passes through. -/
def updateEntitiesStep (tokOf : String → Nat) (s : WorldState) (t : ℚ) (idx : SpatialIndex) :
    Option (WorldState × SpatialIndex) := do
  let idx' ← (movingEntities s).foldlM
    (fun i p => do
      let pos ← getInterpolatedPosition p.2.position p.2.velocity p.2.last_update_time t
      pure (sUpdate i (tokOf p.1) p.1 pos))
    idx
  pure (s, idx')

/-! ## Event identity (core/events.py, Event) -/

/-- Event.__hash__ is hash(self.event_id); with ids modelled as numbers the
id stands for its own hash value, so the hash of an event is a function of
the event_id field alone. -/
def eventPyHash (e : Event) : Nat :=
  e.event_id

/-- Whether an exception class belongs to the StrategosException taxonomy
of core/exceptions.py; the builtin ValueError does not. -/
def PyErr.isStrategos : PyErr → Bool
  | .valueError _ => false
  | _ => true

/-- The per-entity work of one movement frame, rendered as a list of
(id, interpolated position) pairs; used to characterize the index updates
performed by updateEntitiesStep. -/
def interpList (l : List (String × EntityRec)) (t : ℚ) : Option (List (String × Vec3)) :=
  match l with
  | [] => some []
  | p :: rest => do
    let pos ← getInterpolatedPosition p.2.position p.2.velocity p.2.last_update_time t
    let more ← interpList rest t
    pure ((p.1, pos) :: more)

/-! ## Predicates for the seek / checkpoint equivalence claim -/

/-- The events at time <= t, in log order. -/
def eventsUpTo (log : List Event) (t : ℚ) : List Event :=
  log.filter fun e => e.simulation_time ≤ t

/-- The events in the half-open interval (a, b], in log order — the replay
window the specification prescribes after restoring a checkpoint at a. -/
def eventsIn (log : List Event) (a b : ℚ) : List Event :=
  log.filter fun e => a < e.simulation_time ∧ e.simulation_time ≤ b

/-- A checkpoint is coherent with the log when its blob is the fold of all
logged events up to and including its time — what emit_event saves, since
it checkpoints the post-reduction state and the clock never ran backwards
between the events already logged. -/
def CheckpointInv (log : List Event) (cp : Checkpoint) : Prop :=
  applyEvents emptyWorld (eventsUpTo log cp.simulation_time) = some cp.state

/-- The log is in canonical order: simulation times are non-decreasing. -/
def SortedLog (log : List Event) : Prop :=
  log.Pairwise fun a b => a.simulation_time ≤ b.simulation_time

/-! ## Predicates for the entity/type mirror claim -/

/-- The set of ids registered under a type label (empty when the label is
unknown). -/
def typeSet (s : WorldState) (t : String) : List String :=
  (alookup t s.entity_types).getD []

/-- The entity/type mirror invariant: an id is registered under a type
label exactly when its record exists with that type and destroyed_at
unset. -/
def Mirror (s : WorldState) : Prop :=
  ∀ t eid, eid ∈ typeSet s t ↔
    ∃ r, alookup eid s.entities = some r ∧ r.type = t ∧ r.destroyed_at = none

/-- The event is an entity.created event for the given id and type. -/
def isCreatedOf (e : Event) (eid t : String) : Prop :=
  e.event_type = .entityCreated ∧ lookup "entity_id" e.data = some (.str eid) ∧
    lookup "type" e.data = some (.str t)

/-- No entity id is created under two different type labels anywhere in
the sequence. -/
def ConsistentCreates (es : List Event) : Prop :=
  ∀ e1 ∈ es, ∀ e2 ∈ es, ∀ eid t1 t2, isCreatedOf e1 eid t1 → isCreatedOf e2 eid t2 → t1 = t2

/-- Every existing record's type is witnessed by a creation event in the
sequence. -/
def TypesFrom (es : List Event) (s : WorldState) : Prop :=
  ∀ eid r, alookup eid s.entities = some r → ∃ e ∈ es, isCreatedOf e eid r.type

/-- Structural well-formedness of the dict-backed state: entity keys,
type-label keys and every type set are duplicate-free. -/
def WFStateKeys (s : WorldState) : Prop :=
  (s.entities.map Prod.fst).Nodup ∧ (s.entity_types.map Prod.fst).Nodup ∧
    ∀ t, (typeSet s t).Nodup

/-! ## Spatial-index operation sequences -/

/-- The index mutations available to clients of SpatialIndex; each carries
the id(entity_id) token of the UUID object the caller passes. -/
inductive SpatialOp where
  | insert (tok : Nat) (entity_id : String) (p : Vec3)
  | update (tok : Nat) (entity_id : String) (p : Vec3)
  | remove (tok : Nat) (entity_id : String)

/-- Apply one operation. -/
def applyOp (idx : SpatialIndex) : SpatialOp → SpatialIndex
  | .insert tok i p => sInsert idx tok i p
  | .update tok i p => sUpdate idx tok i p
  | .remove tok i => sRemove idx tok i

/-- Run a sequence of operations from the fresh index. -/
def runOps (ops : List SpatialOp) : SpatialIndex :=
  ops.foldl applyOp emptySpatial

/-- The object token an operation passes. -/
def opTok : SpatialOp → Nat
  | .insert tok _ _ => tok
  | .update tok _ _ => tok
  | .remove tok _ => tok

/-- The tokens of the stored rtree entries. -/
def rtreeToks (idx : SpatialIndex) : List Nat :=
  idx.rtree.map fun e => e.1

/-- Every indexed z-coordinate lies inside the fixed prefilter extent
[-1e10, 1e10] used by 2D queries. -/
def zAllB (idx : SpatialIndex) : Bool :=
  idx.positions.all fun q =>
    decide ((-10000000000 : ℚ) ≤ q.2.2.2) && decide (q.2.2.2 ≤ (10000000000 : ℚ))

/-- Every tracked id has at least one rtree entry at its latest recorded
position (superseded entries may also survive, since deletes are keyed by
transient object tokens). -/
def TracksLatest (idx : SpatialIndex) : Prop :=
  ∀ i p, alookup i idx.positions = some p → ∃ t, (t, i, p) ∈ idx.rtree

/-! ## Concrete inputs used by the claim theorems and witnesses -/

/-- A marker event used as concrete input for the event-identity claim. -/
def evIdA : Event :=
  { event_type := .markerCreated
    simulation_time := 1
    data := [("label", .str "m0")]
    metadata := []
    event_id := 42
    causation_id := none
    correlation_id := none
    created_at := 7 }

/-- A second event sharing evIdA's event_id but differing in kind. -/
def evIdB : Event :=
  { event_type := .entityDestroyed
    simulation_time := 1
    data := [("label", .str "m0")]
    metadata := []
    event_id := 42
    causation_id := none
    correlation_id := none
    created_at := 7 }

/-- A concrete entity.created event whose payload position has only two
coordinates. -/
def evCreated2D : Event :=
  { event_type := .entityCreated
    simulation_time := 5
    data := [("entity_id", .str "e1"), ("type", .str "infantry"),
             ("position", .list [.float 1, .float 2])]
    metadata := []
    event_id := 3
    causation_id := none
    correlation_id := none
    created_at := 0 }

/-- A concrete moving entity record for the movement-frame witness. -/
def recMove : EntityRec :=
  { entity_id := "m1", type := "t", position := [.float 0, .float 0, .float 0],
    velocity := [.float 1, .float 0, .float 0], heading := .float 0, speed := .float 0,
    max_speed := .float 10, created_at := 0, destroyed_at := none, waypoints := [],
    metadata := .dict [], last_update_time := 0 }

/-- A concrete one-entity world for the movement-frame witness. -/
def stMove : WorldState :=
  { simulation_time := 0, event_count := 1, metadata := [],
    entities := [("m1", recMove)], entity_types := [("t", ["m1"])] }

/-- A marker event at simulation time 1 (logged and checkpointed). -/
def evMarkerAt1 : Event :=
  { event_type := .markerCreated, simulation_time := 1,
    data := [("label", .str "m")], metadata := [], event_id := 11,
    causation_id := none, correlation_id := none, created_at := 1 }

/-- The state after applying evMarkerAt1 to the empty world. -/
def stAfterMarker : WorldState :=
  { simulation_time := 1, event_count := 1, metadata := [],
    entities := [], entity_types := [] }

/-- A checkpoint taken at time 1, holding the post-event state — exactly
what emit_event saves when it checkpoints right after the marker. -/
def cpAt1 : Checkpoint := ⟨1, stAfterMarker⟩

/-- A marker event at simulation time 2. -/
def evMarkerAt2 : Event :=
  { event_type := .markerCreated, simulation_time := 2,
    data := [("label", .str "m2")], metadata := [], event_id := 12,
    causation_id := none, correlation_id := none, created_at := 2 }

/-- A checkpoint at time 1 whose blob is the empty world (no event at or
before time 1 is logged). -/
def cpNoHit : Checkpoint := ⟨1, emptyWorld⟩

/-- An entity.created event at simulation time 0 with a 3D position. -/
def evCreate0 : Event :=
  { event_type := .entityCreated, simulation_time := 0,
    data := [("entity_id", .str "e9"), ("type", .str "scout"),
             ("position", .list [.float 3, .float 4, .float 0])],
    metadata := [], event_id := 21, causation_id := none, correlation_id := none,
    created_at := 0 }

/-- A pre-seek spatial index holding one stale entry. -/
def idxGhost : SpatialIndex :=
  ⟨[(77, "ghost", (9, 9, 9))], [("ghost", (9, 9, 9))]⟩

/-- entity.created for id d1 under type a, at time 0. -/
def evDupA : Event :=
  { event_type := .entityCreated, simulation_time := 0,
    data := [("entity_id", .str "d1"), ("type", .str "a"),
             ("position", .list [.float 0, .float 0, .float 0])],
    metadata := [], event_id := 31, causation_id := none, correlation_id := none,
    created_at := 0 }

/-- entity.created for the same id d1 under type b, at time 1. -/
def evDupB : Event :=
  { event_type := .entityCreated, simulation_time := 1,
    data := [("entity_id", .str "d1"), ("type", .str "b"),
             ("position", .list [.float 0, .float 0, .float 0])],
    metadata := [], event_id := 32, causation_id := none, correlation_id := none,
    created_at := 1 }

/-- The record created by evDupA. -/
def recDupA : EntityRec :=
  { entity_id := "d1", type := "a", position := [.float 0, .float 0, .float 0],
    velocity := [.float 0, .float 0, .float 0], heading := .float 0, speed := .float 0,
    max_speed := .float 10, created_at := 0, destroyed_at := none, waypoints := [],
    metadata := .dict [], last_update_time := 0 }

/-- The record created by evDupB (overwriting recDupA in place). -/
def recDupB : EntityRec :=
  { entity_id := "d1", type := "b", position := [.float 0, .float 0, .float 0],
    velocity := [.float 0, .float 0, .float 0], heading := .float 0, speed := .float 0,
    max_speed := .float 10, created_at := 1, destroyed_at := none, waypoints := [],
    metadata := .dict [], last_update_time := 1 }

/-- The state after applying evDupA alone. -/
def stSingle : WorldState :=
  { simulation_time := 0, event_count := 1, metadata := [],
    entities := [("d1", recDupA)], entity_types := [("a", ["d1"])] }

/-- The state after applying evDupA then evDupB: the record now has type
b, but d1 is still registered under type a as well. -/
def stDup : WorldState :=
  { simulation_time := 1, event_count := 2, metadata := [],
    entities := [("d1", recDupB)], entity_types := [("a", ["d1"]), ("b", ["d1"])] }

/-! ## Association-list lemma kit -/

theorem alookup_setKey_self {α : Type} (k : String) (v : α) (m : List (String × α)) :
    alookup k (setKey k v m) = some v := by
  induction m with
  | nil => simp [setKey, alookup]
  | cons hd tl ih =>
    by_cases h : hd.1 = k
    · simp [setKey, alookup, h]
    · simp [setKey, alookup, h, ih]

theorem alookup_setKey_of_ne {α : Type} {k k' : String} (h : k' ≠ k) (v : α)
    (m : List (String × α)) : alookup k' (setKey k v m) = alookup k' m := by
  have h1 : k ≠ k' := Ne.symm h
  induction m with
  | nil => simp [setKey, alookup, h1]
  | cons hd tl ih =>
    obtain ⟨a, b⟩ := hd
    by_cases hh : a = k
    · subst hh
      simp [setKey, alookup, h1]
    · by_cases h2 : a = k'
      · simp [setKey, alookup, hh, h2, h]
      · simp [setKey, alookup, hh, h2, ih]

theorem alookup_delKey_of_ne {α : Type} {k k' : String} (h : k' ≠ k)
    (m : List (String × α)) : alookup k' (delKey k m) = alookup k' m := by
  have h1 : k ≠ k' := Ne.symm h
  induction m with
  | nil => simp [delKey]
  | cons hd tl ih =>
    obtain ⟨a, b⟩ := hd
    by_cases hh : a = k
    · subst hh
      simp [delKey, alookup, h1]
    · by_cases h2 : a = k'
      · simp [delKey, alookup, hh, h2, h]
      · simp [delKey, alookup, hh, h2, ih]

theorem alookup_eq_none_of_not_mem {α : Type} {k : String} {m : List (String × α)}
    (h : k ∉ m.map Prod.fst) : alookup k m = none := by
  induction m with
  | nil => rfl
  | cons hd tl ih =>
    obtain ⟨a, b⟩ := hd
    simp only [List.map_cons, List.mem_cons, not_or] at h
    have ha : a ≠ k := fun hx => h.1 hx.symm
    simp only [alookup, ha, if_false]
    exact ih h.2

theorem keys_delKey_sublist {α : Type} (k : String) (m : List (String × α)) :
    ((delKey k m).map Prod.fst).Sublist (m.map Prod.fst) := by
  induction m with
  | nil => simp [delKey]
  | cons hd tl ih =>
    by_cases hh : hd.1 = k
    · simp only [delKey, hh, if_true, List.map_cons]
      exact List.sublist_cons_self _ _
    · simp only [delKey, hh, if_false, List.map_cons]
      exact ih.cons₂ _

theorem alookup_delKey_self {α : Type} {k : String} {m : List (String × α)}
    (h : (m.map Prod.fst).Nodup) : alookup k (delKey k m) = none := by
  induction m with
  | nil => rfl
  | cons hd tl ih =>
    simp only [List.map_cons, List.nodup_cons] at h
    by_cases hh : hd.1 = k
    · subst hh
      simp only [delKey, if_true]
      exact alookup_eq_none_of_not_mem h.1
    · simp only [delKey, hh, if_false, alookup, if_false]
      exact ih h.2

theorem keys_setKey {α : Type} (k : String) (v : α) (m : List (String × α)) :
    (setKey k v m).map Prod.fst =
      if k ∈ m.map Prod.fst then m.map Prod.fst else m.map Prod.fst ++ [k] := by
  induction m with
  | nil => simp [setKey]
  | cons hd tl ih =>
    by_cases hh : hd.1 = k
    · simp [setKey, hh]
    · have hne : k ≠ hd.1 := fun hx => hh hx.symm
      by_cases h2 : k ∈ tl.map Prod.fst
      · simp [setKey, hh, ih, h2, hne]
      · simp [setKey, hh, ih, h2, hne]

theorem keysNodup_setKey {α : Type} {m : List (String × α)} (k : String) (v : α)
    (h : (m.map Prod.fst).Nodup) : ((setKey k v m).map Prod.fst).Nodup := by
  rw [keys_setKey]
  by_cases hk : k ∈ m.map Prod.fst
  · simpa [hk]
  · simp only [hk, if_false]
    rw [List.nodup_append]
    refine ⟨h, List.nodup_singleton k, ?_⟩
    intro a ha hax
    rw [List.mem_singleton] at hax
    exact hk (hax ▸ ha)

theorem keysNodup_delKey {α : Type} {m : List (String × α)} (k : String)
    (h : (m.map Prod.fst).Nodup) : ((delKey k m).map Prod.fst).Nodup :=
  (keys_delKey_sublist k m).nodup h

theorem mem_addElem_iff {x y : String} {l : List String} :
    y ∈ addElem x l ↔ y = x ∨ y ∈ l := by
  unfold addElem
  by_cases h : x ∈ l
  · simp only [h, if_true]
    constructor
    · exact Or.inr
    · rintro (rfl | hy)
      · exact h
      · exact hy
  · simp [h, List.mem_append, or_comm]

theorem nodup_addElem {x : String} {l : List String} (h : l.Nodup) :
    (addElem x l).Nodup := by
  unfold addElem
  by_cases hx : x ∈ l
  · simpa [hx]
  · simp only [hx, if_false]
    rw [List.nodup_append]
    refine ⟨h, List.nodup_singleton x, ?_⟩
    intro a ha hax
    rw [List.mem_singleton] at hax
    exact hx (hax ▸ ha)

/-! ## Support lemmas for seek and replay -/

theorem applyEvents_append (s : WorldState) (l1 l2 : List Event) :
    applyEvents s (l1 ++ l2) = (applyEvents s l1).bind fun x => applyEvents x l2 := by
  induction l1 generalizing s with
  | nil => simp [applyEvents]
  | cons e rest ih =>
    simp only [applyEvents, List.cons_append, List.foldlM_cons]
    cases applyEvent s e with
    | none => rfl
    | some s1 => exact ih s1

theorem filter_split_at (log : List Event) (c target : ℚ) (hs : SortedLog log)
    (hct : c ≤ target) :
    eventsUpTo log target = eventsUpTo log c ++ eventsIn log c target := by
  unfold eventsUpTo eventsIn
  unfold SortedLog at hs
  induction hs with
  | nil => rfl
  | @cons a l h1 _ ih =>
    by_cases hc : a.simulation_time ≤ c
    · simp only [List.filter_cons, decide_eq_true_eq]
      rw [if_pos (le_trans hc hct), if_pos hc,
        if_neg (fun hx : c < a.simulation_time ∧ a.simulation_time ≤ target =>
          absurd hc (not_le.mpr hx.1))]
      simp only [List.cons_append]
      exact congrArg (a :: ·) ih
    · have hclt : c < a.simulation_time := not_le.mp hc
      have hrestgt : ∀ b ∈ l, c < b.simulation_time :=
        fun b hb => lt_of_lt_of_le hclt (h1 b hb)
      have hupc : l.filter (fun e => decide (e.simulation_time ≤ c)) = [] := by
        rw [List.filter_eq_nil_iff]
        intro b hb
        simp [not_le.mpr (hrestgt b hb)]
      have hcongr : l.filter (fun e => decide (e.simulation_time ≤ target)) =
          l.filter (fun e => decide (c < e.simulation_time ∧ e.simulation_time ≤ target)) := by
        apply List.filter_congr
        intro b hb
        apply decide_eq_decide.mpr
        exact ⟨fun h => ⟨hrestgt b hb, h⟩, fun h => h.2⟩
      by_cases ht : a.simulation_time ≤ target
      · simp only [List.filter_cons, decide_eq_true_eq]
        rw [if_pos ht, if_neg hc, if_pos ⟨hclt, ht⟩, hupc, List.nil_append]
        exact congrArg (a :: ·) hcongr
      · simp only [List.filter_cons, decide_eq_true_eq]
        rw [if_neg ht, if_neg hc,
          if_neg (fun hx : c < a.simulation_time ∧ a.simulation_time ≤ target => ht hx.2),
          hupc, List.nil_append]
        exact hcongr

theorem nearestBefore_spec {cps : List Checkpoint} {t : ℚ} {cp : Checkpoint}
    (h : nearestBefore cps t = some cp) : cp ∈ cps ∧ cp.simulation_time ≤ t := by
  unfold nearestBefore at h
  have main : ∀ (l : List Checkpoint) (acc : Option Checkpoint),
      (∀ b, acc = some b → b ∈ cps ∧ b.simulation_time ≤ t) →
      (∀ b ∈ l, b ∈ cps ∧ b.simulation_time ≤ t) →
      ∀ c, l.foldl (fun acc c =>
        match acc with
        | none => some c
        | some b => if b.simulation_time < c.simulation_time then some c else some b)
          acc = some c →
        c ∈ cps ∧ c.simulation_time ≤ t := by
    intro l
    induction l with
    | nil =>
      intro acc hacc _ c hc
      exact hacc c hc
    | cons hd tl ih =>
      intro acc hacc hmem c hc
      simp only [List.foldl_cons] at hc
      refine ih _ ?_ (fun b hb => hmem b (List.mem_cons_of_mem _ hb)) c hc
      intro b hb
      cases acc with
      | none =>
        simp only at hb
        cases hb
        exact hmem hd (List.mem_cons_self _ _)
      | some a =>
        simp only at hb
        by_cases hlt : a.simulation_time < hd.simulation_time
        · rw [if_pos hlt] at hb
          cases hb
          exact hmem hd (List.mem_cons_self _ _)
        · rw [if_neg hlt] at hb
          cases hb
          exact hacc b rfl
  refine main _ none (by intro b hb; cases hb) ?_ cp h
  intro b hb
  have := List.mem_filter.mp hb
  exact ⟨this.1, by simpa using this.2⟩

theorem getEvents_from_zero (log : List Event) (target : ℚ)
    (hnn : ∀ e ∈ log, 0 ≤ e.simulation_time) :
    getEvents log 0 target = eventsUpTo log target := by
  apply List.filter_congr
  intro e he
  simp [hnn e he]

theorem getEvents_eq_eventsIn_of_no_boundary (log : List Event) (c target : ℚ)
    (hnb : ∀ e ∈ log, e.simulation_time ≠ c) :
    getEvents log c target = eventsIn log c target := by
  apply List.filter_congr
  intro e he
  apply decide_eq_decide.mpr
  constructor
  · rintro ⟨hle, h2⟩
    exact ⟨lt_of_le_of_ne hle (Ne.symm (hnb e he)), h2⟩
  · rintro ⟨hlt, h2⟩
    exact ⟨le_of_lt hlt, h2⟩

/-! ## Claim C10: unopened event store read-side degradation -/

/-- C10: on an event store that has not been opened (or has been closed),
get_event_count returns 0, get_latest_time returns None and clear is a
no-op, while append raises EventPersistenceError; the count and
latest-time queries return the same answers on an unopened store as on an
open, empty one, so a caller cannot tell the two apart through them. -/
theorem unopened_store_reads_degrade_silently :
    getEventCount ⟨none⟩ = 0 ∧
    getLatestTime ⟨none⟩ = none ∧
    storeClear ⟨none⟩ = ⟨none⟩ ∧
    (∀ e : Event,
      storeAppend ⟨none⟩ e = .error (.eventPersistenceError "_NOT_INITIALIZED_ERROR")) ∧
    getEventCount ⟨none⟩ = getEventCount ⟨some []⟩ ∧
    getLatestTime ⟨none⟩ = getLatestTime ⟨some []⟩ :=
  ⟨rfl, rfl, rfl, fun _ => rfl, rfl, rfl⟩

/-! ## Claim C8: set_time_scale validation -/

/-- C8 counterexample: set_time_scale with a non-positive scale raises the
builtin ValueError, which is outside the StrategosException taxonomy — the
code has no InvalidTimeScale class at all, so the claim's named exception
is wrong at this concrete input. -/
theorem set_time_scale_raises_builtin_valueError :
    clockSetTimeScale ⟨0, 1⟩ (-1) = .error (.valueError "Time scale must be positive") ∧
    (PyErr.valueError "Time scale must be positive").isStrategos = false :=
  ⟨rfl, rfl⟩

/-- C8 amended: set_time_scale with scale <= 0 raises the builtin
ValueError before the assignment, so the stored scale is untouched (the
embedding returns no new clock on the error path); with scale > 0 it
succeeds and the stored time scale becomes the new value. -/
theorem set_time_scale_spec (c : Clock) (s : ℚ) :
    (s ≤ 0 → clockSetTimeScale c s = .error (.valueError "Time scale must be positive")) ∧
    (0 < s → clockSetTimeScale c s = .ok { c with time_scale := s }) := by
  constructor
  · intro h
    simp [clockSetTimeScale, h]
  · intro h
    simp [clockSetTimeScale, not_le.mpr h]

/-- C8 witness: the amended theorem applied at concrete scales -1 and 2. -/
theorem set_time_scale_spec_witness :
    clockSetTimeScale ⟨0, 1⟩ (-1) = .error (.valueError "Time scale must be positive") ∧
    clockSetTimeScale ⟨0, 1⟩ 2 = .ok ⟨0, 2⟩ :=
  ⟨(set_time_scale_spec ⟨0, 1⟩ (-1)).1 (by norm_num),
   (set_time_scale_spec ⟨0, 1⟩ 2).2 (by norm_num)⟩

/-! ## Claim C6: event equality and hashing -/

/-- C6 counterexample: the frozen dataclass generates a field-wise
equality, so two events with the same event_id but different kinds are not
equal, refuting equality-by-event_id-only; their hashes do agree. -/
theorem event_eq_not_by_id_only :
    evIdA.event_id = evIdB.event_id ∧
    evIdA ≠ evIdB ∧
    eventPyHash evIdA = eventPyHash evIdB :=
  ⟨rfl, fun h => EventKind.noConfusion (congrArg Event.event_type h), rfl⟩

/-- C6 amended: event equality is the dataclass field-wise equality over
all eight fields (so equal events have equal event_ids, but equal
event_ids do not imply equality), while the hash depends on the event_id
field alone. -/
theorem event_eq_structural_hash_by_id (a b : Event) :
    (a = b ↔ (a.event_type = b.event_type ∧ a.simulation_time = b.simulation_time ∧
      a.data = b.data ∧ a.metadata = b.metadata ∧ a.event_id = b.event_id ∧
      a.causation_id = b.causation_id ∧ a.correlation_id = b.correlation_id ∧
      a.created_at = b.created_at)) ∧
    (a.event_id = b.event_id → eventPyHash a = eventPyHash b) := by
  obtain ⟨a1, a2, a3, a4, a5, a6, a7, a8⟩ := a
  obtain ⟨b1, b2, b3, b4, b5, b6, b7, b8⟩ := b
  constructor
  · simp [Event.mk.injEq]
  · intro h
    simpa [eventPyHash] using h

/-- C6 witness: the amended theorem applied at the two concrete events,
with its hash hypothesis discharged. -/
theorem event_eq_structural_hash_by_id_witness :
    eventPyHash evIdA = eventPyHash evIdB :=
  (event_eq_structural_hash_by_id evIdA evIdB).2 rfl

/-! ## Claim C4: the entity.created reducer branch -/

/-- C4 counterexample: applying an entity.created event whose payload
position is the 2-element list [1, 2] stores that 2-element tuple as-is —
the reducer performs no z zero-fill (the normalization lives in
Simulation.create_entity, before emission), so the stored position is not
the zero-filled [1, 2, 0] the claim requires. -/
theorem entity_created_keeps_two_coordinates :
    ((applyEvent emptyWorld evCreated2D).bind fun s =>
        (alookup "e1" s.entities).map EntityRec.position)
      = some [.float 1, .float 2] ∧
    some [PyVal.float 1, PyVal.float 2] ≠ some [PyVal.float 1, PyVal.float 2, PyVal.float 0] := by
  refine ⟨rfl, ?_⟩
  intro h
  have h2 := congrArg (Option.map List.length) h
  simp at h2

/-- C4 amended: applying an entity.created event inserts a record carrying
the payload's id, type and position exactly as delivered (a 2-coordinate
payload position stays 2-coordinate; no z zero-fill happens in the
reducer), with max_speed defaulting to 10.0 when absent, velocity
(0,0,0), last_update_time equal to the event's simulation time, and the
id registered in entity_types under the payload type. -/
theorem entity_created_spec {eid t : String} {ps : List PyVal} (s : WorldState) (e : Event)
    (hk : e.event_type = .entityCreated)
    (hid : lookup "entity_id" e.data = some (.str eid))
    (hty : lookup "type" e.data = some (.str t))
    (hpos : lookup "position" e.data = some (.list ps)) :
    ∃ s', applyEvent s e = some s' ∧
      ∃ r, alookup eid s'.entities = some r ∧
        r.entity_id = eid ∧ r.type = t ∧ r.position = ps ∧
        r.velocity = [.float 0, .float 0, .float 0] ∧
        r.max_speed = getD "max_speed" e.data (.float 10) ∧
        r.last_update_time = e.simulation_time ∧
        eid ∈ (alookup t s'.entity_types).getD [] ∧
        s'.simulation_time = e.simulation_time ∧
        s'.event_count = s.event_count + 1 := by
  simp only [applyEvent, hk]
  simp only [applyEntityCreated, hid, hty, hpos, Option.bind_some, PyVal.asStr, PyVal.asList]
  refine ⟨_, rfl, _, alookup_setKey_self _ _ _, rfl, rfl, rfl, rfl, rfl, rfl, ?_, rfl, rfl⟩
  rw [alookup_setKey_self]
  simp only [Option.getD_some]
  exact mem_addElem_iff.mpr (Or.inl rfl)

/-- C4 witness: the amended theorem applied to the concrete 2D-position
event on the empty world. -/
theorem entity_created_spec_witness :
    ∃ s', applyEvent emptyWorld evCreated2D = some s' ∧
      ∃ r, alookup "e1" s'.entities = some r ∧
        r.entity_id = "e1" ∧ r.type = "infantry" ∧
        r.position = [.float 1, .float 2] ∧
        r.velocity = [.float 0, .float 0, .float 0] ∧
        r.max_speed = getD "max_speed" evCreated2D.data (.float 10) ∧
        r.last_update_time = evCreated2D.simulation_time ∧
        "e1" ∈ (alookup "infantry" s'.entity_types).getD [] ∧
        s'.simulation_time = evCreated2D.simulation_time ∧
        s'.event_count = emptyWorld.event_count + 1 :=
  entity_created_spec emptyWorld evCreated2D rfl rfl rfl rfl

/-! ## Claim C3: emit is atomic under validation failure -/

theorem validateEvent_fails_of_bad {e : Event} {sch : EventSchema}
    (hsch : eventSchema e.event_type = some sch)
    (hbad : (∃ f ∈ sch.required, lookup f e.data = none) ∨
            (∃ ft ∈ sch.types, ∃ v, lookup ft.1 e.data = some v ∧ isInstanceOf v ft.2 = false)) :
    ∃ msg, validateEvent e = some (.eventValidationError msg) := by
  have hred : validateEvent e =
      (match firstMissing e.data sch.required with
       | some f => some (.eventValidationError ("missing required field: " ++ f))
       | none =>
         match firstMismatch e.data sch.types with
         | some f => some (.eventValidationError ("field has wrong type: " ++ f))
         | none => none) := by
    unfold validateEvent
    rw [hsch]
  cases hmiss : firstMissing e.data sch.required with
  | some f => exact ⟨_, by rw [hred, hmiss]⟩
  | none =>
    cases hbad with
    | inl h =>
      obtain ⟨f, hf, hnone⟩ := h
      exfalso
      unfold firstMissing at hmiss
      have := List.find?_eq_none.mp hmiss f hf
      simp [hnone] at this
    | inr h =>
      obtain ⟨ft, hft, v, hv, hmis⟩ := h
      cases hmm : firstMismatch e.data sch.types with
      | some f2 => exact ⟨_, by rw [hred, hmiss, hmm]⟩
      | none =>
        exfalso
        unfold firstMismatch at hmm
        cases hfind : sch.types.find? fun ft =>
            match lookup ft.1 e.data with
            | some v => !isInstanceOf v ft.2
            | none => false with
        | some x => rw [hfind] at hmm; simp at hmm
        | none =>
          have := List.find?_eq_none.mp hfind ft hft
          rw [hv] at this
          simp [hmis] at this

/-- C3: for every event kind with a registered schema and every payload
that misses a required key or carries a type-mismatched value, emit_event
raises EventValidationError and has no side effect: the outcome carries
the orchestrator state unchanged — the event log, the world state, the
dispatch record and the saved checkpoints are exactly those of the input
(nothing was appended, reduced, dispatched or checkpointed). -/
theorem emit_validation_failure_is_side_effect_free (sim : SimState) (kind : EventKind)
    (data : List (String × PyVal)) (eid created : Nat) (sch : EventSchema)
    (hsch : eventSchema kind = some sch)
    (hbad : (∃ f ∈ sch.required, lookup f data = none) ∨
            (∃ ft ∈ sch.types, ∃ v, lookup ft.1 data = some v ∧ isInstanceOf v ft.2 = false)) :
    ∃ msg, emitEvent sim kind data eid created =
      .validationError (.eventValidationError msg) sim := by
  obtain ⟨msg, hval⟩ := validateEvent_fails_of_bad
    (e := { event_type := kind, simulation_time := sim.clock.current_time, data := data,
            metadata := [], event_id := eid, causation_id := none, correlation_id := none,
            created_at := created }) hsch hbad
  refine ⟨msg, ?_⟩
  simp only [emitEvent, hval]

/-- C3 witness: emitting marker.created with an empty payload (missing the
required label) on a concrete orchestrator state raises the validation
error and leaves that state untouched. -/
theorem emit_validation_failure_witness :
    ∃ msg, emitEvent
        { clock := ⟨0, 1⟩, log := [], state := emptyWorld, checkpoints := [],
          checkpoint_interval := 1, dispatched := [] }
        .markerCreated [] 1 2 =
      .validationError (.eventValidationError msg)
        { clock := ⟨0, 1⟩, log := [], state := emptyWorld, checkpoints := [],
          checkpoint_interval := 1, dispatched := [] } :=
  emit_validation_failure_is_side_effect_free _ .markerCreated [] 1 2
    ⟨["label"], [("label", .str)]⟩ rfl
    (Or.inl ⟨"label", List.mem_singleton.mpr rfl, rfl⟩)

/-! ## Claim C9: the movement loop mutates only the spatial index -/

/-- C9: one iteration of the movement update loop returns the world state
unchanged — every entity record keeps its stored position, velocity and
last_update_time — and the only effect is on the spatial index, which
receives exactly one update call per non-zero-velocity entity at the
interpolated position p_last + v * (t - last_update_time), passed with
that entity's dict-key object token. -/
theorem movement_loop_frame (tokOf : String → Nat) (s : WorldState) (t : ℚ)
    (idx : SpatialIndex) (s' : WorldState) (idx' : SpatialIndex)
    (h : updateEntitiesStep tokOf s t idx = some (s', idx')) :
    s' = s ∧
    ∃ ps : List (String × Vec3),
      interpList (movingEntities s) t = some ps ∧
      idx' = ps.foldl (fun i q => sUpdate i (tokOf q.1) q.1 q.2) idx := by
  have main : ∀ (l : List (String × EntityRec)) (i0 r : SpatialIndex),
      (l.foldlM (fun i p => do
        let pos ← getInterpolatedPosition p.2.position p.2.velocity p.2.last_update_time t
        pure (sUpdate i (tokOf p.1) p.1 pos)) i0) = some r →
      ∃ ps : List (String × Vec3),
        interpList l t = some ps ∧
        r = ps.foldl (fun i q => sUpdate i (tokOf q.1) q.1 q.2) i0 := by
    intro l
    induction l with
    | nil =>
      intro i0 r hr
      simp only [List.foldlM_nil, Option.pure_def, Option.some.injEq] at hr
      exact ⟨[], rfl, hr.symm⟩
    | cons hd tl ih =>
      intro i0 r hr
      simp only [List.foldlM_cons] at hr
      cases hpos : getInterpolatedPosition hd.2.position hd.2.velocity hd.2.last_update_time t with
      | none => rw [hpos] at hr; simp at hr
      | some pos =>
        rw [hpos] at hr
        simp only [Option.bind_some, Option.pure_def, Option.bind_eq_bind, Option.some_bind] at hr
        obtain ⟨ps, hps, hfold⟩ := ih (sUpdate i0 (tokOf hd.1) hd.1 pos) r hr
        refine ⟨(hd.1, pos) :: ps, ?_, ?_⟩
        · simp only [interpList, hpos, hps, Option.bind_some, Option.pure_def,
            Option.bind_eq_bind, Option.some_bind]
        · simpa using hfold
  unfold updateEntitiesStep at h
  cases hf : (movingEntities s).foldlM (fun i p => do
      let pos ← getInterpolatedPosition p.2.position p.2.velocity p.2.last_update_time t
      pure (sUpdate i (tokOf p.1) p.1 pos)) idx with
  | none => rw [hf] at h; simp at h
  | some r =>
    rw [hf] at h
    simp only [Option.bind_some, Option.pure_def, Option.bind_eq_bind, Option.some_bind,
      Option.some.injEq, Prod.mk.injEq] at h
    obtain ⟨hs, hidx⟩ := h
    obtain ⟨ps, hps, hfold⟩ := main (movingEntities s) idx r hf
    exact ⟨hs.symm, ps, hps, hidx ▸ hfold⟩

/-- C9 witness: one frame at clock time 2 on the concrete one-entity world
leaves the state unchanged and moves only the index entry to (2, 0, 0). -/
theorem movement_loop_frame_witness :
    stMove = stMove ∧
    ∃ ps : List (String × Vec3),
      interpList (movingEntities stMove) 2 = some ps ∧
      (⟨[(5, "m1", (2, 0, 0))], [("m1", (2, 0, 0))]⟩ : SpatialIndex) =
        ps.foldl (fun i q => sUpdate i ((fun _ => 5) q.1) q.1 q.2) emptySpatial :=
  movement_loop_frame (fun _ => 5) stMove 2 emptySpatial stMove
    ⟨[(5, "m1", (2, 0, 0))], [("m1", (2, 0, 0))]⟩
    (by simp [updateEntitiesStep, movingEntities, velocityNonzero, PyVal.neZero, PyVal.asNum,
      getInterpolatedPosition, sUpdate, sInsert, emptySpatial, alookup, setKey, recMove, stMove])

/-! ## Support lemmas for the entity/type mirror -/

theorem bind_asStr_some {o : Option PyVal} {x : String}
    (h : o.bind PyVal.asStr = some x) : o = some (.str x) := by
  cases o with
  | none => simp at h
  | some v =>
    cases v <;> simp [PyVal.asStr] at h
    rw [h]

theorem bind_asList_some {o : Option PyVal} {xs : List PyVal}
    (h : o.bind PyVal.asList = some xs) : o = some (.list xs) := by
  cases o with
  | none => simp at h
  | some v =>
    cases v <;> simp [PyVal.asList] at h
    rw [h]

theorem delKey_setKey {α : Type} (k : String) (v : α) (m : List (String × α)) :
    delKey k (setKey k v m) = delKey k m := by
  induction m with
  | nil => simp [setKey, delKey]
  | cons hd tl ih =>
    obtain ⟨a, b⟩ := hd
    by_cases h : a = k
    · simp [setKey, delKey, h]
    · simp [setKey, delKey, h, ih]

theorem movedUpdatePosition_fields {r r' : EntityRec} {e : Event}
    (h : movedUpdatePosition r e = some r') :
    r'.type = r.type ∧ r'.destroyed_at = r.destroyed_at := by
  unfold movedUpdatePosition at h
  cases hp : lookup "position" e.data with
  | none =>
    rw [hp] at h
    dsimp only at h
    cases Option.some.inj h
    exact ⟨rfl, rfl⟩
  | some v =>
    rw [hp] at h
    dsimp only at h
    cases hl : v.asList with
    | none => rw [hl] at h; simp at h
    | some l =>
      rw [hl] at h
      simp only [Option.map_some', Option.some.injEq] at h
      cases h
      exact ⟨rfl, rfl⟩

theorem movedUpdateVelocity_fields {r r' : EntityRec} {e : Event}
    (h : movedUpdateVelocity r e = some r') :
    r'.type = r.type ∧ r'.destroyed_at = r.destroyed_at := by
  unfold movedUpdateVelocity at h
  cases hp : lookup "velocity" e.data with
  | none =>
    rw [hp] at h
    dsimp only at h
    cases Option.some.inj h
    exact ⟨rfl, rfl⟩
  | some v =>
    rw [hp] at h
    dsimp only at h
    cases hl : v.asList with
    | none => rw [hl] at h; simp at h
    | some l =>
      rw [hl] at h
      simp only [Option.map_some', Option.some.injEq] at h
      cases h
      exact ⟨rfl, rfl⟩

theorem movedUpdateHeading_fields (r : EntityRec) (e : Event) :
    (movedUpdateHeading r e).type = r.type ∧
      (movedUpdateHeading r e).destroyed_at = r.destroyed_at := by
  unfold movedUpdateHeading
  cases lookup "heading" e.data <;> exact ⟨rfl, rfl⟩

/-- The shape of a successful entity.moved application: either the id is
unknown and the state is returned as-is, or the record is replaced by one
that keeps its type and destroyed_at fields. -/
theorem applyEntityMoved_chars {s s' : WorldState} {e : Event}
    (h : applyEntityMoved s e = some s') :
    ∃ eid, (lookup "entity_id" e.data).bind PyVal.asStr = some eid ∧
      ((alookup eid s.entities = none ∧ s' = s) ∨
       (∃ r0 r4, alookup eid s.entities = some r0 ∧
         r4.type = r0.type ∧ r4.destroyed_at = r0.destroyed_at ∧
         s' = { s with entities := setKey eid r4 s.entities })) := by
  unfold applyEntityMoved at h
  cases hid : (lookup "entity_id" e.data).bind PyVal.asStr with
  | none => rw [hid] at h; simp at h
  | some eid =>
    rw [hid] at h
    simp only [Option.bind_eq_bind, Option.some_bind] at h
    refine ⟨eid, rfl, ?_⟩
    cases hr0 : alookup eid s.entities with
    | none =>
      rw [hr0] at h
      dsimp only at h
      exact Or.inl ⟨rfl, (Option.some.inj h).symm⟩
    | some r0 =>
      rw [hr0] at h
      dsimp only at h
      refine Or.inr ?_
      cases h1 : movedUpdatePosition r0 e with
      | none => rw [h1] at h; simp at h
      | some r1 =>
        rw [h1] at h
        simp only [Option.bind_eq_bind, Option.some_bind] at h
        cases h2 : movedUpdateVelocity r1 e with
        | none => rw [h2] at h; simp at h
        | some r2 =>
          rw [h2] at h
          simp only [Option.bind_eq_bind, Option.some_bind, Option.pure_def,
            Option.some.injEq] at h
          have f1 := movedUpdatePosition_fields h1
          have f2 := movedUpdateVelocity_fields h2
          have f3 := movedUpdateHeading_fields r2 e
          refine ⟨r0, { movedUpdateHeading r2 e with last_update_time := e.simulation_time },
            rfl, ?_, ?_, h.symm⟩
          · exact f3.1.trans (f2.1.trans f1.1)
          · exact f3.2.trans (f2.2.trans f1.2)

/-! ## Claim C1: checkpoint equivalence and the seek replay window -/

/-- C1 counterexample: a log with one marker at time 1 and a coherent
checkpoint at time 1 (its blob is the fold of the log up to time 1).  The
seek reconstruction replays get_events(from_time=1, to_time=1), whose
lower bound is inclusive, so the checkpointed event is applied a second
time: seek yields event_count 2 where the full replay of [0, 1] yields 1,
and the two world states differ. -/
theorem seek_replays_checkpoint_boundary_event_twice :
    CheckpointInv [evMarkerAt1] cpAt1 ∧
    Option.map WorldState.event_count (seekState [evMarkerAt1] [cpAt1] 1) = some 2 ∧
    Option.map WorldState.event_count
      (applyEvents emptyWorld (getEvents [evMarkerAt1] 0 1)) = some 1 ∧
    seekState [evMarkerAt1] [cpAt1] 1 ≠ applyEvents emptyWorld (getEvents [evMarkerAt1] 0 1) := by
  refine ⟨rfl, rfl, rfl, ?_⟩
  intro h
  have h2 : (some 2 : Option Nat) = some 1 := by
    calc (some 2 : Option Nat)
        = Option.map WorldState.event_count (seekState [evMarkerAt1] [cpAt1] 1) := rfl
      _ = Option.map WorldState.event_count
            (applyEvents emptyWorld (getEvents [evMarkerAt1] 0 1)) := by rw [h]
      _ = some 1 := rfl
  exact absurd (Option.some.inj h2) (by decide)

/-- C1 amended: with a canonically ordered log of non-negative-time events
and checkpoints coherent with the log, restoring the nearest checkpoint
before the target and replaying the half-open window (cp.time, target]
always equals the full replay of [0, target]; the seek implementation,
however, replays the closed window [cp.time, target], so it produces that
state exactly when no logged event sits at the checkpoint time itself. -/
theorem seek_checkpoint_equivalence (log : List Event) (cps : List Checkpoint) (target : ℚ)
    (hsorted : SortedLog log)
    (hnn : ∀ e ∈ log, 0 ≤ e.simulation_time)
    (hcp : ∀ cp ∈ cps, CheckpointInv log cp) :
    (∀ cp, nearestBefore cps target = some cp →
      applyEvents cp.state (eventsIn log cp.simulation_time target) =
        applyEvents emptyWorld (getEvents log 0 target)) ∧
    ((∀ cp, nearestBefore cps target = some cp →
        ∀ e ∈ log, e.simulation_time ≠ cp.simulation_time) →
      seekState log cps target = applyEvents emptyWorld (getEvents log 0 target)) := by
  have part1 : ∀ cp, nearestBefore cps target = some cp →
      applyEvents cp.state (eventsIn log cp.simulation_time target) =
        applyEvents emptyWorld (getEvents log 0 target) := by
    intro cp hnear
    obtain ⟨hm, hle⟩ := nearestBefore_spec hnear
    have hinv := hcp cp hm
    rw [getEvents_from_zero log target hnn,
      filter_split_at log cp.simulation_time target hsorted hle,
      applyEvents_append, hinv]
    rfl
  refine ⟨part1, ?_⟩
  intro hnb
  unfold seekState
  cases hnear : nearestBefore cps target with
  | none => rfl
  | some cp =>
    show applyEvents cp.state (getEvents log cp.simulation_time target) =
      applyEvents emptyWorld (getEvents log 0 target)
    rw [getEvents_eq_eventsIn_of_no_boundary log cp.simulation_time target (hnb cp hnear)]
    exact part1 cp hnear

/-- C1 witness: a log with one marker at time 2 and a coherent checkpoint
at time 1; nothing is logged at the checkpoint time, so both the half-open
equivalence and the seek reconstruction agree with the full replay. -/
theorem seek_checkpoint_equivalence_witness :
    (applyEvents cpNoHit.state (eventsIn [evMarkerAt2] cpNoHit.simulation_time 2) =
      applyEvents emptyWorld (getEvents [evMarkerAt2] 0 2)) ∧
    seekState [evMarkerAt2] [cpNoHit] 2 =
      applyEvents emptyWorld (getEvents [evMarkerAt2] 0 2) := by
  have h := seek_checkpoint_equivalence [evMarkerAt2] [cpNoHit] 2
    (by simp [SortedLog])
    (by
      intro e he
      rw [List.mem_singleton] at he
      subst he
      exact (by decide : (0 : ℚ) ≤ evMarkerAt2.simulation_time))
    (by
      intro cp hcp
      rw [List.mem_singleton] at hcp
      subst hcp
      rfl)
  refine ⟨h.1 cpNoHit rfl, h.2 ?_⟩
  intro cp hcp e he
  have hcp2 : cp = cpNoHit := Option.some.inj hcp.symm
  rw [List.mem_singleton] at he
  subst hcp2
  subst he
  exact (by decide :
    evMarkerAt2.simulation_time ≠ cpNoHit.simulation_time)

/-! ## Claim C2: seek and the spatial index -/

/-! ## Claim C5: the entity/type mirror invariant -/

theorem typesFrom_weaken {es : List Event} {e : Event} {s : WorldState}
    (h : TypesFrom es s) : TypesFrom (es ++ [e]) s := by
  intro eid r hr
  obtain ⟨e1, he1, hc1⟩ := h eid r hr
  exact ⟨e1, List.mem_append_left _ he1, hc1⟩

theorem mirror_step_created {s1 s : WorldState} {e : Event} {es : List Event}
    (hm : Mirror s1) (htf : TypesFrom es s1) (hwf : WFStateKeys s1)
    (hgood : ConsistentCreates (es ++ [e]))
    (he : e.event_type = .entityCreated)
    (h : applyEntityCreated s1 e = some s) :
    Mirror s ∧ TypesFrom (es ++ [e]) s ∧ WFStateKeys s := by
  unfold applyEntityCreated at h
  cases hid : (lookup "entity_id" e.data).bind PyVal.asStr with
  | none => rw [hid] at h; simp at h
  | some eid =>
    rw [hid] at h
    simp only [Option.bind_eq_bind, Option.some_bind] at h
    cases hty : (lookup "type" e.data).bind PyVal.asStr with
    | none => rw [hty] at h; simp at h
    | some t0 =>
      rw [hty] at h
      simp only [Option.bind_eq_bind, Option.some_bind] at h
      cases hps : (lookup "position" e.data).bind PyVal.asList with
      | none => rw [hps] at h; simp at h
      | some ps =>
        rw [hps] at h
        simp only [Option.bind_eq_bind, Option.some_bind, Option.pure_def,
          Option.some.injEq] at h
        have hcre : isCreatedOf e eid t0 := ⟨he, bind_asStr_some hid, bind_asStr_some hty⟩
        have hE : s.entities = setKey eid (createdRecord e eid t0 ps) s1.entities := by
          rw [← h]
        have hT : s.entity_types =
            setKey t0 (addElem eid ((alookup t0 s1.entity_types).getD []))
              s1.entity_types := by
          rw [← h]
        refine ⟨?_, ?_, ?_⟩
        · intro t eid2
          unfold typeSet
          rw [hT, hE]
          by_cases ht : t = t0
          · subst ht
            rw [alookup_setKey_self]
            simp only [Option.getD_some]
            by_cases heid : eid2 = eid
            · subst heid
              constructor
              · intro _
                exact ⟨createdRecord e eid2 t ps, by rw [alookup_setKey_self], rfl, rfl⟩
              · intro _
                exact mem_addElem_iff.mpr (Or.inl rfl)
            · rw [mem_addElem_iff]
              constructor
              · rintro (rfl | hmem)
                · exact absurd rfl heid
                · obtain ⟨r1, hr1, hty1, hd1⟩ := (hm t eid2).mp hmem
                  exact ⟨r1, by rw [alookup_setKey_of_ne heid]; exact hr1, hty1, hd1⟩
              · rintro ⟨r1, hr1, hty1, hd1⟩
                rw [alookup_setKey_of_ne heid] at hr1
                exact Or.inr ((hm t eid2).mpr ⟨r1, hr1, hty1, hd1⟩)
          · rw [alookup_setKey_of_ne ht]
            by_cases heid : eid2 = eid
            · subst heid
              constructor
              · intro hmem
                obtain ⟨r1, hr1, hty1, hd1⟩ := (hm t eid2).mp hmem
                obtain ⟨e1, he1, hc1⟩ := htf eid2 r1 hr1
                have hts := hgood e1 (List.mem_append_left _ he1) e
                  (List.mem_append_right _ (List.mem_singleton.mpr rfl)) eid2 r1.type t0 hc1 hcre
                exact absurd (hty1 ▸ hts) ht
              · rintro ⟨r1, hr1, hty1, hd1⟩
                rw [alookup_setKey_self] at hr1
                obtain rfl : createdRecord e eid2 t0 ps = r1 := Option.some.inj hr1
                exact absurd
                  (hty1.symm.trans (rfl : (createdRecord e eid2 t0 ps).type = t0)) ht
            · rw [alookup_setKey_of_ne heid]
              exact hm t eid2
        · intro eid2 r2 hr2
          rw [hE] at hr2
          by_cases heid : eid2 = eid
          · subst heid
            rw [alookup_setKey_self] at hr2
            obtain rfl : createdRecord e eid2 t0 ps = r2 := Option.some.inj hr2
            exact ⟨e, List.mem_append_right _ (List.mem_singleton.mpr rfl), hcre⟩
          · rw [alookup_setKey_of_ne heid] at hr2
            obtain ⟨e1, he1, hc1⟩ := htf eid2 r2 hr2
            exact ⟨e1, List.mem_append_left _ he1, hc1⟩
        · refine ⟨?_, ?_, ?_⟩
          · rw [hE]
            exact keysNodup_setKey _ _ hwf.1
          · rw [hT]
            exact keysNodup_setKey _ _ hwf.2.1
          · intro t
            unfold typeSet
            rw [hT]
            by_cases ht : t = t0
            · subst ht
              rw [alookup_setKey_self]
              simp only [Option.getD_some]
              exact nodup_addElem (hwf.2.2 t)
            · rw [alookup_setKey_of_ne ht]
              exact hwf.2.2 t

theorem mirror_step_moved {s1 s : WorldState} {e : Event} {es : List Event}
    (hm : Mirror s1) (htf : TypesFrom es s1) (hwf : WFStateKeys s1)
    (h : applyEntityMoved s1 e = some s) :
    Mirror s ∧ TypesFrom (es ++ [e]) s ∧ WFStateKeys s := by
  obtain ⟨eid, -, hcase⟩ := applyEntityMoved_chars h
  cases hcase with
  | inl hc =>
    obtain ⟨-, rfl⟩ := hc
    exact ⟨hm, typesFrom_weaken htf, hwf⟩
  | inr hc =>
    obtain ⟨r0, r4, hr0, hty4, hd4, rfl⟩ := hc
    refine ⟨?_, ?_, ?_⟩
    · intro t eid2
      by_cases heid : eid2 = eid
      · subst heid
        constructor
        · intro hmem
          obtain ⟨r1, hr1, hty1, hd1⟩ := (hm t eid2).mp hmem
          obtain rfl : r0 = r1 := Option.some.inj (hr0.symm.trans hr1)
          exact ⟨r4, by rw [alookup_setKey_self], hty4.trans hty1, hd4.trans hd1⟩
        · rintro ⟨r, hr, htyr, hdr⟩
          rw [alookup_setKey_self] at hr
          obtain rfl : r4 = r := Option.some.inj hr
          exact (hm t eid2).mpr ⟨r0, hr0, hty4.symm.trans htyr, hd4.symm.trans hdr⟩
      · constructor
        · intro hmem
          obtain ⟨r1, hr1, hty1, hd1⟩ := (hm t eid2).mp hmem
          exact ⟨r1, by rw [alookup_setKey_of_ne heid]; exact hr1, hty1, hd1⟩
        · rintro ⟨r1, hr1, hty1, hd1⟩
          rw [alookup_setKey_of_ne heid] at hr1
          exact (hm t eid2).mpr ⟨r1, hr1, hty1, hd1⟩
    · intro eid2 r2 hr2
      by_cases heid : eid2 = eid
      · subst heid
        rw [alookup_setKey_self] at hr2
        obtain rfl : r4 = r2 := Option.some.inj hr2
        obtain ⟨e1, he1, hc1⟩ := htf eid2 r0 hr0
        exact ⟨e1, List.mem_append_left _ he1, hty4.symm ▸ hc1⟩
      · rw [alookup_setKey_of_ne heid] at hr2
        obtain ⟨e1, he1, hc1⟩ := htf eid2 r2 hr2
        exact ⟨e1, List.mem_append_left _ he1, hc1⟩
    · exact ⟨keysNodup_setKey _ _ hwf.1, hwf.2.1, hwf.2.2⟩

theorem mirror_step_destroyed {s1 s : WorldState} {e : Event} {es : List Event}
    (hm : Mirror s1) (htf : TypesFrom es s1) (hwf : WFStateKeys s1)
    (h : applyEntityDestroyed s1 e = some s) :
    Mirror s ∧ TypesFrom (es ++ [e]) s ∧ WFStateKeys s := by
  unfold applyEntityDestroyed at h
  cases hid : (lookup "entity_id" e.data).bind PyVal.asStr with
  | none => rw [hid] at h; simp at h
  | some eid =>
    rw [hid] at h
    simp only [Option.bind_eq_bind, Option.some_bind] at h
    cases hr0 : alookup eid s1.entities with
    | none =>
      rw [hr0] at h
      dsimp only at h
      obtain rfl : s1 = s := Option.some.inj h
      exact ⟨hm, typesFrom_weaken htf, hwf⟩
    | some r0 =>
      rw [hr0] at h
      dsimp only at h
      cases htys : alookup r0.type s1.entity_types with
      | none =>
        rw [htys] at h
        dsimp only at h
        have hE : s.entities = delKey eid s1.entities := by
          rw [← Option.some.inj h, delKey_setKey]
        have hT : s.entity_types = s1.entity_types := by
          rw [← Option.some.inj h]
        have htypeSet : ∀ t, typeSet s t = typeSet s1 t := by
          intro t
          unfold typeSet
          rw [hT]
        refine ⟨?_, ?_, ?_⟩
        · intro t eid2
          rw [htypeSet t, hE]
          by_cases heid : eid2 = eid
          · subst heid
            constructor
            · intro hmem
              obtain ⟨r1, hr1, hty1, hd1⟩ := (hm t eid2).mp hmem
              obtain rfl : r0 = r1 := Option.some.inj (hr0.symm.trans hr1)
              rw [← hty1] at hmem
              have : typeSet s1 r0.type = [] := by
                unfold typeSet
                rw [htys]
                rfl
              rw [this] at hmem
              cases hmem
            · rintro ⟨r2, hr2, -, -⟩
              rw [alookup_delKey_self hwf.1] at hr2
              cases hr2
          · constructor
            · intro hmem
              obtain ⟨r1, hr1, hty1, hd1⟩ := (hm t eid2).mp hmem
              exact ⟨r1, by rw [alookup_delKey_of_ne heid]; exact hr1, hty1, hd1⟩
            · rintro ⟨r1, hr1, hty1, hd1⟩
              rw [alookup_delKey_of_ne heid] at hr1
              exact (hm t eid2).mpr ⟨r1, hr1, hty1, hd1⟩
        · intro eid2 r2 hr2
          rw [hE] at hr2
          by_cases heid : eid2 = eid
          · subst heid
            rw [alookup_delKey_self hwf.1] at hr2
            cases hr2
          · rw [alookup_delKey_of_ne heid] at hr2
            obtain ⟨e1, he1, hc1⟩ := htf eid2 r2 hr2
            exact ⟨e1, List.mem_append_left _ he1, hc1⟩
        · refine ⟨?_, ?_, ?_⟩
          · rw [hE]
            exact keysNodup_delKey _ hwf.1
          · rw [hT]
            exact hwf.2.1
          · intro t
            rw [htypeSet t]
            exact hwf.2.2 t
      | some tys =>
        rw [htys] at h
        dsimp only at h
        have hE : s.entities = delKey eid s1.entities := by
          rw [← Option.some.inj h, delKey_setKey]
        have hT : s.entity_types = setKey r0.type (tys.erase eid) s1.entity_types := by
          rw [← Option.some.inj h]
        have htys1 : typeSet s1 r0.type = tys := by
          unfold typeSet
          rw [htys]
          rfl
        have htysnd : tys.Nodup := htys1 ▸ hwf.2.2 r0.type
        refine ⟨?_, ?_, ?_⟩
        · intro t eid2
          unfold typeSet
          rw [hT, hE]
          by_cases ht : t = r0.type
          · subst ht
            rw [alookup_setKey_self]
            simp only [Option.getD_some]
            by_cases heid : eid2 = eid
            · subst heid
              constructor
              · intro hmem
                exact absurd hmem (htysnd.not_mem_erase)
              · rintro ⟨r2, hr2, -, -⟩
                rw [alookup_delKey_self hwf.1] at hr2
                cases hr2
            · rw [htysnd.mem_erase_iff]
              constructor
              · rintro ⟨-, hmem⟩
                rw [← htys1] at hmem
                obtain ⟨r1, hr1, hty1, hd1⟩ := (hm r0.type eid2).mp hmem
                exact ⟨r1, by rw [alookup_delKey_of_ne heid]; exact hr1, hty1, hd1⟩
              · rintro ⟨r1, hr1, hty1, hd1⟩
                rw [alookup_delKey_of_ne heid] at hr1
                refine ⟨heid, ?_⟩
                rw [← htys1]
                exact (hm r0.type eid2).mpr ⟨r1, hr1, hty1, hd1⟩
          · rw [alookup_setKey_of_ne ht]
            by_cases heid : eid2 = eid
            · subst heid
              constructor
              · intro hmem
                obtain ⟨r1, hr1, hty1, hd1⟩ := (hm t eid2).mp hmem
                obtain rfl : r0 = r1 := Option.some.inj (hr0.symm.trans hr1)
                exact absurd hty1.symm ht
              · rintro ⟨r2, hr2, -, -⟩
                rw [alookup_delKey_self hwf.1] at hr2
                cases hr2
            · constructor
              · intro hmem
                obtain ⟨r1, hr1, hty1, hd1⟩ := (hm t eid2).mp hmem
                exact ⟨r1, by rw [alookup_delKey_of_ne heid]; exact hr1, hty1, hd1⟩
              · rintro ⟨r1, hr1, hty1, hd1⟩
                rw [alookup_delKey_of_ne heid] at hr1
                exact (hm t eid2).mpr ⟨r1, hr1, hty1, hd1⟩
        · intro eid2 r2 hr2
          rw [hE] at hr2
          by_cases heid : eid2 = eid
          · subst heid
            rw [alookup_delKey_self hwf.1] at hr2
            cases hr2
          · rw [alookup_delKey_of_ne heid] at hr2
            obtain ⟨e1, he1, hc1⟩ := htf eid2 r2 hr2
            exact ⟨e1, List.mem_append_left _ he1, hc1⟩
        · refine ⟨?_, ?_, ?_⟩
          · rw [hE]
            exact keysNodup_delKey _ hwf.1
          · rw [hT]
            exact keysNodup_setKey _ _ hwf.2.1
          · intro t
            unfold typeSet
            rw [hT]
            by_cases ht : t = r0.type
            · subst ht
              rw [alookup_setKey_self]
              simp only [Option.getD_some]
              exact htysnd.erase _
            · rw [alookup_setKey_of_ne ht]
              exact hwf.2.2 t

theorem mirror_strong (es : List Event) :
    ConsistentCreates es →
    ∀ s, applyEvents emptyWorld es = some s →
      Mirror s ∧ TypesFrom es s ∧ WFStateKeys s := by
  induction es using List.reverseRecOn with
  | nil =>
    intro _ s h
    obtain rfl : emptyWorld = s := Option.some.inj h
    refine ⟨?_, ?_, ?_⟩
    · intro t eid
      constructor
      · intro hmem
        simp [typeSet, emptyWorld, alookup] at hmem
      · rintro ⟨r, hr, -, -⟩
        simp [emptyWorld, alookup] at hr
    · intro eid r hr
      simp [emptyWorld, alookup] at hr
    · exact ⟨by simp [emptyWorld], by simp [emptyWorld],
        fun t => by simp [typeSet, emptyWorld, alookup]⟩
  | append_singleton es e ih =>
    intro hgood s h
    rw [applyEvents_append] at h
    cases h1 : applyEvents emptyWorld es with
    | none => rw [h1] at h; simp at h
    | some s1 =>
      rw [h1] at h
      simp only [Option.some_bind] at h
      have h2 : applyEvent s1 e = some s := by
        unfold applyEvents at h
        simp only [List.foldlM_cons, List.foldlM_nil] at h
        cases hap : applyEvent s1 e with
        | none => rw [hap] at h; simp at h
        | some x =>
          rw [hap] at h
          simp only [Option.bind_eq_bind, Option.some_bind, Option.pure_def,
            Option.some.injEq] at h
          rw [h]
      have hgood' : ConsistentCreates es := by
        intro e1 he1 e2 he2 eid t1 t2 hc1 hc2
        exact hgood e1 (List.mem_append_left _ he1) e2 (List.mem_append_left _ he2)
          eid t1 t2 hc1 hc2
      obtain ⟨hm0, htf0, hwf0⟩ := ih hgood' s1 h1
      have hm : Mirror
          { s1 with simulation_time := e.simulation_time,
                    event_count := s1.event_count + 1 } := hm0
      have htf : TypesFrom es
          { s1 with simulation_time := e.simulation_time,
                    event_count := s1.event_count + 1 } := htf0
      have hwf : WFStateKeys
          { s1 with simulation_time := e.simulation_time,
                    event_count := s1.event_count + 1 } := hwf0
      unfold applyEvent at h2
      cases he : e.event_type with
      | entityCreated =>
        rw [he] at h2
        dsimp only at h2
        exact mirror_step_created hm htf hwf hgood he h2
      | entityMoved =>
        rw [he] at h2
        dsimp only at h2
        exact mirror_step_moved hm htf hwf h2
      | entityDestroyed =>
        rw [he] at h2
        dsimp only at h2
        exact mirror_step_destroyed hm htf hwf h2
      | simulationStarted =>
        rw [he] at h2
        dsimp only at h2
        obtain rfl := Option.some.inj h2
        exact ⟨hm, typesFrom_weaken htf, hwf⟩
      | simulationPaused =>
        rw [he] at h2
        dsimp only at h2
        obtain rfl := Option.some.inj h2
        exact ⟨hm, typesFrom_weaken htf, hwf⟩
      | simulationResumed =>
        rw [he] at h2
        dsimp only at h2
        obtain rfl := Option.some.inj h2
        exact ⟨hm, typesFrom_weaken htf, hwf⟩
      | simulationStopped =>
        rw [he] at h2
        dsimp only at h2
        obtain rfl := Option.some.inj h2
        exact ⟨hm, typesFrom_weaken htf, hwf⟩
      | timeScaled =>
        rw [he] at h2
        dsimp only at h2
        obtain rfl := Option.some.inj h2
        exact ⟨hm, typesFrom_weaken htf, hwf⟩
      | timeScaleChanged =>
        rw [he] at h2
        dsimp only at h2
        obtain rfl := Option.some.inj h2
        exact ⟨hm, typesFrom_weaken htf, hwf⟩
      | markerCreated =>
        rw [he] at h2
        dsimp only at h2
        obtain rfl := Option.some.inj h2
        exact ⟨hm, typesFrom_weaken htf, hwf⟩
      | checkpointCreated =>
        rw [he] at h2
        dsimp only at h2
        obtain rfl := Option.some.inj h2
        exact ⟨hm, typesFrom_weaken htf, hwf⟩
      | checkpointRestored =>
        rw [he] at h2
        dsimp only at h2
        obtain rfl := Option.some.inj h2
        exact ⟨hm, typesFrom_weaken htf, hwf⟩
      | custom name =>
        rw [he] at h2
        dsimp only at h2
        obtain rfl := Option.some.inj h2
        exact ⟨hm, typesFrom_weaken htf, hwf⟩

/-- C5 counterexample: creating d1 under type a and then re-creating the
same id under type b leaves d1 registered in entity_types under a while
its record now has type b — the mirror biconditional fails at (a, d1)
after the second applied event. -/
theorem mirror_violated_by_retyping_creation :
    applyEvents emptyWorld [evDupA, evDupB] = some stDup ∧
    "d1" ∈ typeSet stDup "a" ∧
    (alookup "d1" stDup.entities).map EntityRec.type = some "b" ∧
    ¬ Mirror stDup := by
  refine ⟨rfl, List.mem_singleton.mpr rfl, rfl, ?_⟩
  intro hM
  obtain ⟨r, hr, hty, -⟩ := (hM "a" "d1").mp (List.mem_singleton.mpr rfl)
  rw [show alookup "d1" stDup.entities = some recDupB from rfl] at hr
  obtain rfl : recDupB = r := Option.some.inj hr
  exact absurd (hty.symm.trans (rfl : recDupB.type = "b")) (by decide)

/-- C5 amended: the entity/type mirror — an id appears in entity_types[t]
iff its record exists with type t and destroyed_at unset — holds for every
state reachable from the empty state by a sequence of successfully applied
events in which no entity id is created under two different type labels;
a re-creation of a live id under a new type (the counterexample) is the
one way event application breaks it. -/
theorem mirror_invariant (es : List Event) (s : WorldState)
    (hgood : ConsistentCreates es)
    (happ : applyEvents emptyWorld es = some s) : Mirror s :=
  (mirror_strong es hgood s happ).1

/-- C5 witness: the mirror invariant applied to the one-creation log. -/
theorem mirror_invariant_witness : Mirror stSingle :=
  mirror_invariant [evDupA] stSingle
    (by
      intro e1 he1 e2 he2 eid t1 t2 hc1 hc2
      rw [List.mem_singleton] at he1 he2
      subst he1
      subst he2
      have h1 := hc1.2.2
      have h2 := hc2.2.2
      rw [show lookup "type" evDupA.data = some (.str "a") from rfl] at h1 h2
      obtain rfl : "a" = t1 := PyVal.str.inj (Option.some.inj h1)
      obtain rfl : "a" = t2 := PyVal.str.inj (Option.some.inj h2)
      rfl)
    rfl

/-! ## Claim C7: support lemmas on the spatial index -/

theorem alookup_mem {α : Type} {k : String} {v : α} {m : List (String × α)}
    (h : alookup k m = some v) : (k, v) ∈ m := by
  induction m with
  | nil => cases h
  | cons hd tl ih =>
    obtain ⟨a, b⟩ := hd
    by_cases ha : a = k
    · subst ha
      simp only [alookup, if_pos rfl] at h
      cases Option.some.inj h
      exact List.mem_cons_self _ _
    · simp only [alookup, ha, if_false] at h
      exact List.mem_cons_of_mem _ (ih h)

theorem rtreeDelete_of_not_mem {entries : List (Nat × String × Vec3)} {tok : Nat} (p : Vec3)
    (h : tok ∉ entries.map fun e => e.1) : rtreeDelete entries tok p = entries := by
  induction entries with
  | nil => rfl
  | cons e rest ih =>
    simp only [List.map_cons, List.mem_cons, not_or] at h
    have hcond : ¬(e.1 = tok ∧ e.2.2 = p) := fun hx => h.1 hx.1.symm
    simp only [rtreeDelete, hcond, if_false]
    rw [ih h.2]

theorem rtreeDelete_sublist (entries : List (Nat × String × Vec3)) (tok : Nat) (p : Vec3) :
    (rtreeDelete entries tok p).Sublist entries := by
  induction entries with
  | nil => simp [rtreeDelete]
  | cons e rest ih =>
    by_cases hx : e.1 = tok ∧ e.2.2 = p
    · simp only [rtreeDelete, hx, if_true]
      exact List.sublist_cons_self _ _
    · simp only [rtreeDelete, hx, if_false]
      exact ih.cons₂ _

theorem rtreeToks_applyOp_sublist (idx : SpatialIndex) (op : SpatialOp) :
    (rtreeToks (applyOp idx op)).Sublist (rtreeToks idx ++ [opTok op]) := by
  cases op with
  | insert tok i p =>
    simp only [applyOp, sInsert, rtreeToks, opTok, List.map_append]
    exact List.Sublist.refl _
  | update tok i p =>
    cases hold : alookup i idx.positions with
    | none =>
      simp only [applyOp, sUpdate, hold, sInsert, rtreeToks, opTok, List.map_append]
      exact List.Sublist.refl _
    | some old =>
      simp only [applyOp, sUpdate, hold, rtreeToks, opTok, List.map_append]
      exact ((rtreeDelete_sublist idx.rtree tok old).map _).append (List.Sublist.refl _)
  | remove tok i =>
    cases hold : alookup i idx.positions with
    | none =>
      simp only [applyOp, sRemove, hold, rtreeToks, opTok]
      exact List.sublist_append_left _ _
    | some p =>
      simp only [applyOp, sRemove, hold, rtreeToks, opTok]
      exact ((rtreeDelete_sublist idx.rtree tok p).map _).trans (List.sublist_append_left _ _)

theorem tracks_sInsert {idx : SpatialIndex} (tok : Nat) (i : String) (p : Vec3)
    (htr : TracksLatest idx) : TracksLatest (sInsert idx tok i p) := by
  intro j q hq
  simp only [sInsert] at hq ⊢
  by_cases hj : j = i
  · subst hj
    rw [alookup_setKey_self] at hq
    obtain rfl : p = q := Option.some.inj hq
    exact ⟨tok, List.mem_append_right _ (List.mem_singleton.mpr rfl)⟩
  · rw [alookup_setKey_of_ne hj] at hq
    obtain ⟨t, ht⟩ := htr j q hq
    exact ⟨t, List.mem_append_left _ ht⟩

theorem tracks_sUpdate {idx : SpatialIndex} {tok : Nat} (i : String) (p : Vec3)
    (hfresh : tok ∉ rtreeToks idx)
    (htr : TracksLatest idx) : TracksLatest (sUpdate idx tok i p) := by
  unfold sUpdate
  cases hold : alookup i idx.positions with
  | none => exact tracks_sInsert tok i p htr
  | some old =>
    have heq : rtreeDelete idx.rtree tok old = idx.rtree :=
      rtreeDelete_of_not_mem old hfresh
    intro j q hq
    dsimp only at hq ⊢
    rw [heq]
    by_cases hj : j = i
    · subst hj
      rw [alookup_setKey_self] at hq
      obtain rfl : p = q := Option.some.inj hq
      exact ⟨tok, List.mem_append_right _ (List.mem_singleton.mpr rfl)⟩
    · rw [alookup_setKey_of_ne hj] at hq
      obtain ⟨t, ht⟩ := htr j q hq
      exact ⟨t, List.mem_append_left _ ht⟩

theorem tracks_sRemove {idx : SpatialIndex} {tok : Nat} (i : String)
    (hfresh : tok ∉ rtreeToks idx)
    (htr : TracksLatest idx) (hnd : (idx.positions.map Prod.fst).Nodup) :
    TracksLatest (sRemove idx tok i) := by
  unfold sRemove
  cases hold : alookup i idx.positions with
  | none => exact htr
  | some p =>
    have heq : rtreeDelete idx.rtree tok p = idx.rtree :=
      rtreeDelete_of_not_mem p hfresh
    intro j q hq
    dsimp only at hq ⊢
    rw [heq]
    by_cases hj : j = i
    · subst hj
      rw [alookup_delKey_self hnd] at hq
      cases hq
    · rw [alookup_delKey_of_ne hj] at hq
      exact htr j q hq

theorem tracks_applyOp {idx : SpatialIndex} {op : SpatialOp}
    (hfresh : opTok op ∉ rtreeToks idx)
    (htr : TracksLatest idx) (hnd : (idx.positions.map Prod.fst).Nodup) :
    TracksLatest (applyOp idx op) := by
  cases op with
  | insert tok i p => exact tracks_sInsert tok i p htr
  | update tok i p => exact tracks_sUpdate i p hfresh htr
  | remove tok i => exact tracks_sRemove i hfresh htr hnd

theorem posKeys_applyOp {idx : SpatialIndex} (op : SpatialOp)
    (hnd : (idx.positions.map Prod.fst).Nodup) :
    ((applyOp idx op).positions.map Prod.fst).Nodup := by
  cases op with
  | insert tok i p => exact keysNodup_setKey _ _ hnd
  | update tok i p =>
    show ((sUpdate idx tok i p).positions.map Prod.fst).Nodup
    unfold sUpdate
    cases hold : alookup i idx.positions with
    | none => exact keysNodup_setKey _ _ hnd
    | some old => exact keysNodup_setKey _ _ hnd
  | remove tok i =>
    show ((sRemove idx tok i).positions.map Prod.fst).Nodup
    unfold sRemove
    cases hold : alookup i idx.positions with
    | none => exact hnd
    | some p => exact keysNodup_delKey _ hnd

theorem tracks_runOps : ∀ (ops : List SpatialOp) (idx : SpatialIndex),
    (rtreeToks idx ++ ops.map opTok).Nodup →
    TracksLatest idx → (idx.positions.map Prod.fst).Nodup →
    TracksLatest (ops.foldl applyOp idx) := by
  intro ops
  induction ops with
  | nil => exact fun idx _ htr _ => htr
  | cons op rest ih =>
    intro idx hfresh htr hnd
    simp only [List.map_cons] at hfresh
    rw [List.foldl_cons]
    have htokfresh : opTok op ∉ rtreeToks idx := fun hmem =>
      (List.nodup_append.mp hfresh).2.2 hmem (List.mem_cons_self _ _)
    have hall : ((rtreeToks idx ++ [opTok op]) ++ rest.map opTok).Nodup := by
      simpa [List.append_assoc] using hfresh
    have hnext : (rtreeToks (applyOp idx op) ++ rest.map opTok).Nodup :=
      ((rtreeToks_applyOp_sublist idx op).append (List.Sublist.refl _)).nodup hall
    exact ih (applyOp idx op) hnext (tracks_applyOp htokfresh htr hnd)
      (posKeys_applyOp op hnd)

theorem abs_bound_of_sq_le (d r : ℚ) (hr : 0 ≤ r) (h : d * d ≤ r * r) :
    -r ≤ d ∧ d ≤ r := by
  constructor <;> nlinarith [sq_nonneg (d + r), sq_nonneg (d - r)]

theorem inBox_of_distOk_3d {p center : Vec3} {radius : ℚ}
    (h : distOk p center radius true = true) :
    inBox p (center.1 - radius, center.2.1 - radius, center.2.2 - radius)
      (center.1 + radius, center.2.1 + radius, center.2.2 + radius) = true := by
  have h' : sqrtLe (sqDist3 p center) radius = true := h
  simp only [sqrtLe, sqDist3, decide_eq_true_eq] at h'
  obtain ⟨hr, hs⟩ := h'
  have hx := abs_bound_of_sq_le (p.1 - center.1) radius hr (by
    linarith [mul_self_nonneg (p.2.1 - center.2.1), mul_self_nonneg (p.2.2 - center.2.2)])
  have hy := abs_bound_of_sq_le (p.2.1 - center.2.1) radius hr (by
    linarith [mul_self_nonneg (p.1 - center.1), mul_self_nonneg (p.2.2 - center.2.2)])
  have hzz := abs_bound_of_sq_le (p.2.2 - center.2.2) radius hr (by
    linarith [mul_self_nonneg (p.1 - center.1), mul_self_nonneg (p.2.1 - center.2.1)])
  simp only [inBox, decide_eq_true_eq]
  refine ⟨by linarith [hx.1], by linarith [hx.2], by linarith [hy.1], by linarith [hy.2],
    by linarith [hzz.1], by linarith [hzz.2]⟩

theorem inBox_of_distOk_2d {p center : Vec3} {radius : ℚ}
    (h : distOk p center radius false = true)
    (hzlo : (-10000000000 : ℚ) ≤ p.2.2) (hzhi : p.2.2 ≤ (10000000000 : ℚ)) :
    inBox p (center.1 - radius, center.2.1 - radius, (-10000000000 : ℚ))
      (center.1 + radius, center.2.1 + radius, (10000000000 : ℚ)) = true := by
  have h' : sqrtLe (sqDist2 p center) radius = true := h
  simp only [sqrtLe, sqDist2, decide_eq_true_eq] at h'
  obtain ⟨hr, hs⟩ := h'
  have hx := abs_bound_of_sq_le (p.1 - center.1) radius hr (by
    linarith [mul_self_nonneg (p.2.1 - center.2.1)])
  have hy := abs_bound_of_sq_le (p.2.1 - center.2.1) radius hr (by
    linarith [mul_self_nonneg (p.1 - center.1)])
  simp only [inBox, decide_eq_true_eq]
  refine ⟨by linarith [hx.1], by linarith [hx.2], by linarith [hy.1], by linarith [hy.2],
    hzlo, hzhi⟩

theorem zAllB_bound {idx : SpatialIndex} (hz : zAllB idx = true) {i : String} {p : Vec3}
    (h : alookup i idx.positions = some p) :
    (-10000000000 : ℚ) ≤ p.2.2 ∧ p.2.2 ≤ (10000000000 : ℚ) := by
  have hmem := alookup_mem h
  unfold zAllB at hz
  rw [List.all_eq_true] at hz
  have := hz (i, p) hmem
  simp only [Bool.and_eq_true, decide_eq_true_eq] at this
  exact this

theorem mem_queryRadius_iff {idx : SpatialIndex} {center : Vec3} {radius : ℚ}
    {include_z : Bool} {i : String} (htr : TracksLatest idx)
    (hz : include_z = false → zAllB idx = true) :
    i ∈ queryRadius idx center radius include_z ↔
      ∃ p, alookup i idx.positions = some p ∧
        distOk p center radius include_z = true := by
  simp only [queryRadius]
  constructor
  · intro hmem
    rw [List.mem_filterMap] at hmem
    obtain ⟨entry, hentry, hf⟩ := hmem
    cases hlook : alookup entry.2.1 idx.positions with
    | none => rw [hlook] at hf; cases hf
    | some p =>
      rw [hlook] at hf
      dsimp only at hf
      by_cases hd : distOk p center radius include_z = true
      · rw [if_pos hd] at hf
        cases Option.some.inj hf
        exact ⟨p, hlook, hd⟩
      · rw [if_neg hd] at hf
        cases hf
  · rintro ⟨p, hlook, hdist⟩
    rw [List.mem_filterMap]
    obtain ⟨t, ht⟩ := htr i p hlook
    refine ⟨(t, i, p), ?_, ?_⟩
    · rw [List.mem_filter]
      refine ⟨ht, ?_⟩
      cases include_z with
      | true => exact inBox_of_distOk_3d hdist
      | false =>
        obtain ⟨hzlo, hzhi⟩ := zAllB_bound (hz rfl) hlook
        exact inBox_of_distOk_2d hdist hzlo hzhi
    · dsimp only
      rw [hlook]
      dsimp only
      rw [if_pos hdist]

/-- C7 counterexample: query_radius can return the same id twice, and can
miss an id outside the fixed z prefilter extent.  Deletes are keyed by the
transient object token the caller passes (CPython id of the entity_id
object); the event handlers construct a fresh UUID object per call, so the
update's delete silently misses the stored entry and the stale entry
survives: after insert of e at (0,0,0) under token 1 and an update to
(1,0,0) under token 2, a 2D query of radius 2 about the origin returns
["e", "e"].  Separately, a single insert at z = 2e10 — beyond the 2D
prefilter's fixed z range [-1e10, 1e10] — is invisible to a 2D query even
though its 2D distance to the center is 0. -/
theorem query_radius_duplicate_and_missed :
    queryRadius (runOps [.insert 1 "e" (0, 0, 0), .update 2 "e" (1, 0, 0)])
      (0, 0, 0) 2 false = ["e", "e"] ∧
    alookup "far" (runOps [.insert 3 "far" (0, 0, 20000000000)]).positions
      = some (0, 0, 20000000000) ∧
    distOk (0, 0, 20000000000) (0, 0, 0) 1 false = true ∧
    queryRadius (runOps [.insert 3 "far" (0, 0, 20000000000)]) (0, 0, 0) 1 false = [] := by
  refine ⟨?_, rfl, ?_, ?_⟩
  · simp only [queryRadius, runOps, applyOp, sInsert, sUpdate, rtreeDelete, emptySpatial,
      alookup, setKey, List.foldl_cons, List.foldl_nil, List.nil_append, List.filter_cons,
      List.filter_nil, inBox, distOk, sqrtLe, sqDist2, decide_eq_true_eq]
    norm_num [List.filterMap_cons, List.filterMap_nil]
  · have : sqrtLe (sqDist2 (0, 0, 20000000000) (0, 0, 0)) 1 = true := by
      simp only [sqrtLe, sqDist2, decide_eq_true_eq]
      norm_num
    exact this
  · simp only [queryRadius, runOps, applyOp, sInsert, emptySpatial, setKey,
      List.foldl_cons, List.foldl_nil, List.nil_append, List.filter_cons, List.filter_nil,
      inBox, decide_eq_true_eq]
    norm_num

/-- C7 amended: under the call pattern this codebase exhibits — every
operation passes a fresh entity_id object, so the object tokens keying the
rtree deletes are pairwise distinct and every delete silently misses —
query_radius returns i iff i's latest recorded position passes the exact
distance test (2D or 3D Euclidean distance at most r), provided, when
include_z is false, that every indexed z-coordinate lies inside the
prefilter extent [-1e10, 1e10].  The spec's "each exactly once" is false:
stale rtree entries survive updates and the same id can be returned twice
(the counterexample), as can a position outside the z extent be missed. -/
theorem query_radius_set_exact (ops : List SpatialOp) (center : Vec3) (radius : ℚ)
    (include_z : Bool) (i : String)
    (hfresh : (ops.map opTok).Nodup)
    (hz : include_z = false → zAllB (runOps ops) = true) :
    i ∈ queryRadius (runOps ops) center radius include_z ↔
      ∃ p, alookup i (runOps ops).positions = some p ∧
        distOk p center radius include_z = true := by
  have htr : TracksLatest (runOps ops) := by
    refine tracks_runOps ops emptySpatial ?_ ?_ ?_
    · simpa [rtreeToks, emptySpatial] using hfresh
    · intro j q hq
      simp [emptySpatial, alookup] at hq
    · simp [emptySpatial]
  exact mem_queryRadius_iff htr hz

/-- C7 witness: the amended theorem applied to two concrete inserts under
distinct tokens and a 2D query, with the freshness and z-extent hypotheses
discharged. -/
theorem query_radius_set_exact_witness :
    (([SpatialOp.insert 1 "a" (0, 0, 0), SpatialOp.insert 2 "b" (3, 4, 0)]).map
      opTok).Nodup ∧
    ("b" ∈ queryRadius (runOps [.insert 1 "a" (0, 0, 0), .insert 2 "b" (3, 4, 0)])
        (0, 0, 0) 5 false ↔
      ∃ p, alookup "b"
          (runOps [.insert 1 "a" (0, 0, 0), .insert 2 "b" (3, 4, 0)]).positions = some p ∧
        distOk p (0, 0, 0) 5 false = true) :=
  ⟨by decide,
    query_radius_set_exact [.insert 1 "a" (0, 0, 0), .insert 2 "b" (3, 4, 0)]
      (0, 0, 0) 5 false "b" (by decide) (fun _ => rfl)⟩

/-- C2 (code bug): Simulation.seek contains no statement that touches the
spatial index.  Seeking to time 1 over a log holding one entity.created at
time 0, with a pre-seek index holding only a stale ghost entry, leaves the
index exactly as it was: the live entity e9 of the reconstructed state is
absent from the index and the ghost entry survives, contradicting the
prescribed rebuild (which the spec itself notes the source omits). -/
theorem seek_leaves_spatial_index_untouched :
    (seekFull [evCreate0] [] 1 idxGhost).map
        (fun p => ((alookup "e9" p.1.entities).isSome,
                   alookup "e9" p.2.positions,
                   alookup "ghost" p.2.positions))
      = some (true, none, some (9, 9, 9)) := rfl

end Strategos
